import Mathlib

/-!
# Verification of the YAPF rail cost engine (`yapf_costrail.hpp`)

This file is a shallow embedding of `CYapfCostRailT` from the OpenTTD
repository (source file `yapf_costrail.hpp`): the cost determination used by
the YAPF rail pathfinder.  The cost engine itself (`PfCalcCost`, `SignalCost`,
`ReservationCost`, `PlatformLengthPenalty`, `CanUseGlobalCache`, ...) is
translated from the source line by line.  The collaborators the source invokes
but whose definitions are not part of the provided sources — the map/track
accessors (`rail_map.h`, `pbs.h`), the track follower (`follow_track.hpp`),
the settings table and the pathfinder type declarations (`pathfinder_type.h`)
— are modelled as abstract parameters gathered in an `Env` structure, or, when
the specification pins down their content, defined from the specification and
marked as such in their doc comments.

Costs are C++ `int`s and are modelled as `Int`; penalty settings are
non-negative configuration constants (unsigned in the settings table) and are
modelled as `Nat`, injected into `Int` at use sites.  The unbounded
tile-walking loop of `PfCalcCost` is modelled with explicit fuel: the result
is `none` when the fuel runs out, and every theorem quantifies over runs that
terminate.
-/

namespace Yapf

/-- Tile indices. The map accessors are abstract, so a tile is just an
integer id; `Int` (rather than `Nat`) lets the station-reservation scan add a
signed per-direction tile offset exactly like `tile += diff` in the source. -/
abbrev TileIndex := Int

/-- A directed track piece (trackdir) id, 0..15 in the source bitmasks. -/
abbrev Trackdir := Nat

/-- A track id (trackdir with direction stripped). -/
abbrev Track := Nat

/-- A diagonal direction id. -/
abbrev DiagDirection := Nat

/-- Tile classes used by the cost engine (`GetTileType` results it inspects:
`MP_VOID`, `MP_RAILWAY`, `MP_ROAD`, `MP_STATION`; everything else is only ever
hit through default branches, collapsed into `other`). -/
inductive TileType
  | void
  | railway
  | road
  | station
  | other
deriving DecidableEq, Repr

/-- Signal state (`SIGNAL_STATE_RED` / `SIGNAL_STATE_GREEN`). -/
inductive SignalState
  | red
  | green
deriving DecidableEq, Repr

/-- Signal types the cost engine distinguishes (`SIGTYPE_BLOCK`,
`SIGTYPE_ENTRY`, `SIGTYPE_EXIT`, `SIGTYPE_COMBO`, `SIGTYPE_PBS`,
`SIGTYPE_PBS_ONEWAY`). -/
inductive SignalType
  | block
  | entry
  | exit
  | combo
  | pbs
  | pbsOneway
deriving DecidableEq, Repr

/-- Modelled from the spec: `IsPbsSignal` (from `signal_func.h`, not among the
provided sources) — the spec's "path/PBS signals", i.e. the two
path-reservation signal types. -/
def IsPbsSignal : SignalType → Bool
  | .pbs => true
  | .pbsOneway => true
  | _ => false

/-- Modelled from the spec: the `EndSegmentReason` bitset of
`pathfinder_type.h` (not among the provided sources).  The spec lists the
reasons why a segment terminated: "dead end, depot, station, waypoint,
rail-type change, safe-tile, choice-follows, path-too-long, segment-too-long,
infinite-loop".  The bitset is modelled as one `Bool` per reason. -/
structure EndSegmentReasons where
  deadEnd : Bool := false
  railType : Bool := false
  infiniteLoop : Bool := false
  segmentTooLong : Bool := false
  choiceFollows : Bool := false
  depot : Bool := false
  waypoint : Bool := false
  station : Bool := false
  safeTile : Bool := false
  pathTooLong : Bool := false
deriving DecidableEq, Repr

/-- `EndSegmentReasons::Any()` — some reason bit is set. -/
def EndSegmentReasons.any (e : EndSegmentReasons) : Bool :=
  e.deadEnd || e.railType || e.infiniteLoop || e.segmentTooLong || e.choiceFollows ||
  e.depot || e.waypoint || e.station || e.safeTile || e.pathTooLong

/-- Bitwise intersection of two reason sets (`operator&`). -/
def EndSegmentReasons.inter (a b : EndSegmentReasons) : EndSegmentReasons where
  deadEnd := a.deadEnd && b.deadEnd
  railType := a.railType && b.railType
  infiniteLoop := a.infiniteLoop && b.infiniteLoop
  segmentTooLong := a.segmentTooLong && b.segmentTooLong
  choiceFollows := a.choiceFollows && b.choiceFollows
  depot := a.depot && b.depot
  waypoint := a.waypoint && b.waypoint
  station := a.station && b.station
  safeTile := a.safeTile && b.safeTile
  pathTooLong := a.pathTooLong && b.pathTooLong

/-- `EndSegmentReasons::Any(mask)` — the intersection with `mask` is
non-empty. -/
def EndSegmentReasons.anyOf (e mask : EndSegmentReasons) : Bool :=
  (e.inter mask).any

/-- Modelled from the spec: `ESRF_POSSIBLE_TARGET`.  The source comments the
use site with "Depot, station or waypoint." — the reasons marking a possible
destination. -/
def ESRF_POSSIBLE_TARGET : EndSegmentReasons :=
  { depot := true, waypoint := true, station := true }

/-- Modelled from the spec: `ESRF_ABORT_PF_MASK` — the reasons that stop a
search branch (spec: structural dead ends are "recovered locally by pruning
the branch"; the path-too-long bound "signal[s] the search driver to not
expand this branch further"; an infinite loop likewise cannot be
continued). -/
def ESRF_ABORT_PF_MASK : EndSegmentReasons :=
  { deadEnd := true, pathTooLong := true, infiniteLoop := true }

/-- Modelled from the spec: `ESRF_CACHED_MASK` — the reasons that may be
stored into a cached segment.  `PathTooLong` is a per-search bound, not a
property of the track, and a walk that hits it aborts before the write-back,
so it is excluded; every other reason describes the track itself and is
kept. -/
def ESRF_CACHED_MASK : EndSegmentReasons :=
  { deadEnd := true, railType := true, infiniteLoop := true, segmentTooLong := true,
    choiceFollows := true, depot := true, waypoint := true, station := true, safeTile := true }

/-- Modelled from the spec: the YAPF settings table ("all penalty constants
... as plain numeric configuration").  Penalties are non-negative constants
(`Nat`); the three look-ahead polynomial coefficients may be negative
(`Int`). -/
structure YAPFSettings where
  rail_look_ahead_signal_p0 : Int
  rail_look_ahead_signal_p1 : Int
  rail_look_ahead_signal_p2 : Int
  rail_look_ahead_max_signals : Nat
  rail_firstred_twoway_eol : Bool
  rail_slope_penalty : Nat
  rail_curve45_penalty : Nat
  rail_curve90_penalty : Nat
  rail_doubleslip_penalty : Nat
  rail_crossing_penalty : Nat
  rail_pbs_station_penalty : Nat
  rail_pbs_cross_penalty : Nat
  rail_pbs_signal_back_penalty : Nat
  rail_firstred_penalty : Nat
  rail_firstred_exit_penalty : Nat
  rail_lastred_penalty : Nat
  rail_lastred_exit_penalty : Nat
  rail_station_penalty : Nat
  rail_longer_platform_penalty : Nat
  rail_longer_platform_per_tile_penalty : Nat
  rail_shorter_platform_penalty : Nat
  rail_shorter_platform_per_tile_penalty : Nat
  rail_depot_reverse_penalty : Nat
deriving DecidableEq, Repr

/-- The look-ahead penalty polynomial `p0 + i*(p1 + i*p2)` (spec: "the
configured look-ahead penalty polynomial (p0 + i·(p1 + i·p2), i = signals
passed so far)"). -/
def lookAheadPoly (s : YAPFSettings) (i : Nat) : Int :=
  s.rail_look_ahead_signal_p0 +
    (i : Int) * (s.rail_look_ahead_signal_p1 + (i : Int) * s.rail_look_ahead_signal_p2)

/-- The pre-computed look-ahead penalty table built by the `CYapfCostRailT`
constructor: `sig_look_ahead_costs[i] = p0 + i * (p1 + i * p2)` for
`i < rail_look_ahead_max_signals`. -/
def sig_look_ahead_costs (s : YAPFSettings) : List Int :=
  (List.range s.rail_look_ahead_max_signals).map (lookAheadPoly s)

/-- Result data of one successful `TrackFollower::Follow` step: the next tile,
the bitmask of reachable trackdirs there, the number of skipped
tunnel/bridge/station tiles, whether a rail station was entered, and the
speed-limit data `GetSpeedLimit` would report for this step. -/
structure FollowRes where
  new_tile : TileIndex
  new_td_bits : Nat
  tiles_skipped : Nat
  is_station : Bool
  max_speed : Nat
  min_speed : Nat
deriving DecidableEq, Repr

/-- Outcome of `TrackFollower::Follow`: failure with its typed error (the cost
engine only distinguishes `EC_RAIL_ROAD_TYPE` from the rest), or success. -/
inductive FollowOutcome
  | fail (rail_road_type : Bool)
  | ok (r : FollowRes)
deriving DecidableEq, Repr

/-- The environment: settings, per-pathfinder state set through the public
setters (`SetMaxCost`, `DisableCache`, `SetTreatFirstRedTwoWaySignalAsEOL`),
the template parameters of the track follower, and the abstract map, vehicle
and destination interfaces consumed by the cost engine (their implementations
are not among the provided sources).  All map accessors are pure — the spec
requires cost calculation to be "a pure query over map/signal/reservation
data". -/
structure Env where
  settings : YAPFSettings
  max_cost : Int
  disable_cache : Bool
  treat_first_red_two_way_signal_as_eol : Bool
  allow90degTurns : Bool
  doTrackMasking : Bool
  tileType : TileIndex → TileType
  railType : TileIndex → Nat
  hasSignalOnTrackdir : TileIndex → Trackdir → Bool
  getSignalStateByTrackdir : TileIndex → Trackdir → SignalState
  getSignalType : TileIndex → Track → SignalType
  isOnewaySignal : TileIndex → Track → Bool
  stSlopeCost : TileIndex → Trackdir → Bool
  isLevelCrossing : TileIndex → Bool
  isPlainRailTile : TileIndex → Bool
  getTrackBits : TileIndex → Nat
  diagdirReachesTracks : DiagDirection → Nat
  isRailStationTile : TileIndex → Bool
  hasStationReservation : TileIndex → Bool
  getReservedTrackbits : TileIndex → Nat
  trackOverlapsTracks : Nat → Track → Bool
  isRailDepotTile : TileIndex → Bool
  isRailWaypoint : TileIndex → Bool
  getStationIndex : TileIndex → Nat
  getPlatformLength : TileIndex → DiagDirection → Nat
  isSafeWaitingPosition : TileIndex → Trackdir → Bool
  isWaitingPositionFree : TileIndex → Trackdir → Bool
  hasOnewaySignalBlockingTrackdir : TileIndex → Trackdir → Bool
  reverseTrackdir : Trackdir → Trackdir
  trackdirToTrack : Trackdir → Track
  trackdirToExitdir : Trackdir → DiagDirection
  reverseDiagDir : DiagDirection → DiagDirection
  tileOffsByDiagDir : DiagDirection → Int
  nextTrackdir : Trackdir → Trackdir
  trackdirCrossesTrackdirs : Trackdir → Nat
  isDiagonalTrackdir : Trackdir → Bool
  follow : TileIndex → Trackdir → FollowOutcome
  followWp : TileIndex → Trackdir → FollowOutcome
  vehicleLength : Nat
  vehicleDisplayMaxSpeed : Nat
  orderMaxSpeed : Nat
  orderIsGotoWaypoint : Bool
  orderDestination : Nat
  waypointIsSingleTile : Nat → Bool
  pfDetectDestination : TileIndex → Trackdir → Bool

/-- `TreatFirstRedTwoWaySignalAsEOL()`: the setting and the per-pathfinder
flag must both be on. -/
def TreatFirstRedTwoWaySignalAsEOL (env : Env) : Bool :=
  env.settings.rail_firstred_twoway_eol && env.treat_first_red_two_way_signal_as_eol

/-- The cached segment data attached to a node (`CachedData` /
`CSegmentCostCacheT::CSegment`): cost (negative = not yet computed), cached
end-segment reasons, position of the last signal met in the segment (if any),
and the last tile/trackdir of the segment. -/
structure CachedData where
  cost : Int := -1
  end_segment_reason : EndSegmentReasons := {}
  last_signal_tile : Option TileIndex := none
  last_signal_td : Trackdir := 0
  last_tile : TileIndex := 0
  last_td : Trackdir := 0
deriving DecidableEq, Repr

/-- The data of the parent node that `PfCalcCost` reads: its accumulated
cost, its last tile/trackdir (segment end), and — for `CanUseGlobalCache` —
how many signals it has passed. -/
structure ParentInfo where
  cost : Int
  last_tile : TileIndex
  last_td : Trackdir
  num_signals_passed : Nat
deriving DecidableEq, Repr

/-- The node flag bits (`flags_u.flags_s`) the cost engine touches. -/
structure NodeFlags where
  target_seen : Bool := false
  choice_seen : Bool := false
  last_signal_was_red : Bool := false
deriving DecidableEq, Repr

/-- A search node (`CYapfRailNodeT`) as seen by the cost engine: key,
parent back-reference (as the data read from it), accumulated cost, signal
counters and flags, and the attached segment.  `GetLastTile` /
`GetLastTrackdir` read `segment.last_tile` / `segment.last_td`. -/
structure Node where
  key_tile : TileIndex
  key_td : Trackdir
  parent : Option ParentInfo
  cost : Int := 0
  num_signals_passed : Nat := 0
  last_signal_type : SignalType := .block
  last_red_signal_type : SignalType := .block
  flags : NodeFlags := {}
  segment : CachedData := {}
deriving DecidableEq, Repr

/-- `YAPF_TILE_LENGTH` (pathfinder_type.h, not among the provided sources):
base cost of a full diagonal tile. -/
def YAPF_TILE_LENGTH : Nat := 100

/-- `YAPF_TILE_CORNER_LENGTH`: base cost of a corner (non-diagonal) piece. -/
def YAPF_TILE_CORNER_LENGTH : Nat := 71

/-- `TILE_SIZE`: world units per tile, used to convert a vehicle length into
tiles. -/
def TILE_SIZE : Nat := 16

/-- `CYapfCostRailT::MAX_SEGMENT_COST`. -/
def MAX_SEGMENT_COST : Int := 10000

/-- `INVALID_TILE` sentinel for the `TILE` scratch structure. -/
def INVALID_TILE : TileIndex := -1

/-- `INVALID_TRACKDIR` sentinel for the `TILE` scratch structure. -/
def INVALID_TRACKDIR : Trackdir := 255

/-- `INVALID_RAILTYPE` sentinel for the `TILE` scratch structure. -/
def INVALID_RAILTYPE : Nat := 255

/-- The `TILE` scratch structure of `PfCalcCost`: a tile together with the
trackdir being traversed and the cached tile type / rail type. -/
structure TILE where
  tile : TileIndex
  td : Trackdir
  tile_type : TileType
  rail_type : Nat
deriving DecidableEq, Repr

/-- The default `TILE()` constructor. -/
def TILE.empty : TILE :=
  { tile := INVALID_TILE, td := INVALID_TRACKDIR, tile_type := .void,
    rail_type := INVALID_RAILTYPE }

/-- The `TILE(tile, td)` constructor: look up tile type and rail type. -/
def mkTILE (env : Env) (t : TileIndex) (td : Trackdir) : TILE :=
  { tile := t, td := td, tile_type := env.tileType t, rail_type := env.railType t }

/-- `KillFirstBit`: clear the lowest set bit. -/
def killFirstBit (x : Nat) : Nat := Nat.land x (x - 1)

/-- Fuel-driven helper for `findFirstBit`; the fuel is an upper bound on the
bit position, so `x` itself always suffices. -/
def findFirstBitAux : Nat → Nat → Nat
  | 0, _ => 0
  | fuel + 1, x => if x % 2 = 1 then 0 else findFirstBitAux fuel (x / 2) + 1

/-- `FindFirstBit`: index of the lowest set bit (0 for 0; the source never
calls it on an empty bitmask). -/
def findFirstBit (x : Nat) : Nat := findFirstBitAux x x

/-- `CeilDiv(a, b)` (core utils): division rounding up. -/
def CeilDiv (a b : Nat) : Nat := (a + b - 1) / b

/-- `CYapfCostRailT::SlopeCost`: the slope penalty when the base-class test
`stSlopeCost` (an abstract map predicate here) fires. -/
def SlopeCost (env : Env) (tile : TileIndex) (td : Trackdir) : Int :=
  if env.stSlopeCost tile td then (env.settings.rail_slope_penalty : Int) else 0

/-- `CYapfCostRailT::CurveCost`: 90-degree curve penalty when allowed and the
two trackdirs cross, 45-degree curve penalty when the move is not straight. -/
def CurveCost (env : Env) (td1 td2 : Trackdir) : Int :=
  if env.allow90degTurns ∧ Nat.testBit (env.trackdirCrossesTrackdirs td1) td2 then
    (env.settings.rail_curve90_penalty : Int)
  else if td2 ≠ env.nextTrackdir td1 then
    (env.settings.rail_curve45_penalty : Int)
  else 0

/-- `CYapfCostRailT::SwitchCost`: double-slip penalty when both adjoining
plain-rail tiles offer more than one track piece toward the transition. -/
def SwitchCost (env : Env) (tile1 tile2 : TileIndex) (exitdir : DiagDirection) : Int :=
  if env.isPlainRailTile tile1 ∧ env.isPlainRailTile tile2 then
    let t1 := killFirstBit (Nat.land (env.getTrackBits tile1)
      (env.diagdirReachesTracks (env.reverseDiagDir exitdir))) ≠ 0
    let t2 := killFirstBit (Nat.land (env.getTrackBits tile2)
      (env.diagdirReachesTracks exitdir)) ≠ 0
    if t1 ∧ t2 then (env.settings.rail_doubleslip_penalty : Int) else 0
  else 0

/-- `CYapfCostRailT::OneTileCost`: base cost of one tile (plus the level
crossing penalty on road tiles for diagonal trackdirs). -/
def OneTileCost (env : Env) (tile : TileIndex) (trackdir : Trackdir) : Int :=
  if env.isDiagonalTrackdir trackdir then
    (YAPF_TILE_LENGTH : Int) +
      (match env.tileType tile with
        | .road => if env.isLevelCrossing tile then (env.settings.rail_crossing_penalty : Int) else 0
        | _ => 0)
  else (YAPF_TILE_CORNER_LENGTH : Int)

/-- Helper for `IsAnyStationTileReserved`: scan `k` platform tiles starting at
`t`, stepping by `diff`. -/
def anyStationTileReservedAux (env : Env) (diff : Int) : Nat → TileIndex → Bool
  | 0, _ => false
  | k + 1, t => env.hasStationReservation t || anyStationTileReservedAux env diff k (t + diff)

/-- `CYapfCostRailT::IsAnyStationTileReserved`: whether any of the
`skipped + 1` platform tiles ending at `tile` (walking backwards along the
trackdir) is reserved. -/
def IsAnyStationTileReserved (env : Env) (tile : TileIndex) (trackdir : Trackdir)
    (skipped : Nat) : Bool :=
  let diff := env.tileOffsByDiagDir (env.trackdirToExitdir (env.reverseTrackdir trackdir))
  anyStationTileReservedAux env diff (skipped + 1) tile

/-- `CYapfCostRailT::ReservationCost`: penalty for running across reserved
tracks, only while inside the first half of the signal look-ahead window and
only after a PBS signal. -/
def ReservationCost (env : Env) (n : Node) (tile : TileIndex) (trackdir : Trackdir)
    (skipped : Nat) : Int :=
  if n.num_signals_passed ≥ (sig_look_ahead_costs env.settings).length / 2 then 0
  else if ¬(IsPbsSignal n.last_signal_type = true) then 0
  else if env.isRailStationTile tile ∧ IsAnyStationTileReserved env tile trackdir skipped then
    ((env.settings.rail_pbs_station_penalty * (skipped + 1) : Nat) : Int)
  else if env.trackOverlapsTracks (env.getReservedTrackbits tile) (env.trackdirToTrack trackdir) then
    let cost : Nat :=
      if env.isDiagonalTrackdir trackdir then env.settings.rail_pbs_cross_penalty
      else (env.settings.rail_pbs_cross_penalty * YAPF_TILE_CORNER_LENGTH) / YAPF_TILE_LENGTH
    ((cost * (skipped + 1) : Nat) : Int)
  else 0

/-- Set the `DeadEnd` reason on the segment attached to a node
(`n.segment->end_segment_reason.Set(EndSegmentReason::DeadEnd)`). -/
def Node.setSegmentDeadEnd (n : Node) : Node :=
  { n with segment := { n.segment with
      end_segment_reason := { n.segment.end_segment_reason with deadEnd := true } } }

/-- The node updates at the end of the along-signal branch of `SignalCost`:
`n.num_signals_passed++`, `n.segment->last_signal_tile = tile`,
`n.segment->last_signal_td = trackdir`. -/
def Node.passSignal (n : Node) (tile : TileIndex) (trackdir : Trackdir) : Node :=
  { n with
    num_signals_passed := n.num_signals_passed + 1,
    segment := { n.segment with last_signal_tile := some tile, last_signal_td := trackdir } }

/-- Result of `SignalCost`: the returned cost, the updated node, and whether
`stopped_on_first_two_way_signal` was raised. -/
structure SigRes where
  cost : Int
  n : Node
  stopped : Bool
deriving DecidableEq, Repr

/-- `CYapfCostRailT::SignalCost`, translated branch by branch.  The
first-red-two-way abort is represented by the `.inl` arm of the intermediate
sum (the source `return -1`), which skips the signal-passed bookkeeping and
the PBS back-signal penalty.  `PruneIntermediateNodeBranch` only detaches
other arena nodes and does not change this node's cost data, so it has no
counterpart on the modelled state. -/
def SignalCost (env : Env) (n : Node) (tile : TileIndex) (trackdir : Trackdir) : SigRes :=
  if env.tileType tile = TileType.railway then
    let has_signal_against := env.hasSignalOnTrackdir tile (env.reverseTrackdir trackdir)
    let has_signal_along := env.hasSignalOnTrackdir tile trackdir
    if has_signal_against ∧ ¬(has_signal_along = true) ∧
        env.isOnewaySignal tile (env.trackdirToTrack trackdir) then
      { cost := 0, n := n.setSegmentDeadEnd, stopped := false }
    else
      let inner : Node ⊕ (Int × Node) :=
        if has_signal_along then
          let sig_state := env.getSignalStateByTrackdir tile trackdir
          let sig_type := env.getSignalType tile (env.trackdirToTrack trackdir)
          let n1 := { n with last_signal_type := sig_type }
          let look_ahead_cost : Int :=
            if n1.num_signals_passed < (sig_look_ahead_costs env.settings).length then
              (sig_look_ahead_costs env.settings).getD n1.num_signals_passed 0
            else 0
          if sig_state ≠ SignalState.red then
            let n2 := { n1 with flags := { n1.flags with last_signal_was_red := false } }
            let c : Int := if look_ahead_cost < 0 then -look_ahead_cost else 0
            .inr (c, n2.passSignal tile trackdir)
          else
            if ¬(IsPbsSignal sig_type = true) ∧ TreatFirstRedTwoWaySignalAsEOL env = true ∧
                n1.flags.choice_seen = true ∧ has_signal_against = true ∧
                n1.num_signals_passed = 0 then
              .inl n1
            else
              let n2 := { n1 with
                last_red_signal_type := sig_type,
                flags := { n1.flags with last_signal_was_red := true } }
              let c1 : Int :=
                if ¬(IsPbsSignal sig_type = true) ∧ 0 < look_ahead_cost then look_ahead_cost else 0
              let c2 : Int :=
                if n2.num_signals_passed = 0 then
                  match sig_type with
                  | .combo => (env.settings.rail_firstred_exit_penalty : Int)
                  | .exit => (env.settings.rail_firstred_exit_penalty : Int)
                  | .block => (env.settings.rail_firstred_penalty : Int)
                  | .entry => (env.settings.rail_firstred_penalty : Int)
                  | _ => 0
                else 0
              .inr (c1 + c2, n2.passSignal tile trackdir)
        else .inr (0, n)
      match inner with
      | .inl na => { cost := -1, n := na.setSegmentDeadEnd, stopped := true }
      | .inr (c, n3) =>
        let back : Int :=
          if has_signal_against ∧
              IsPbsSignal (env.getSignalType tile (env.trackdirToTrack trackdir)) = true then
            if n3.num_signals_passed < env.settings.rail_look_ahead_max_signals then
              (env.settings.rail_pbs_signal_back_penalty : Int)
            else 0
          else 0
        { cost := c + back, n := n3, stopped := false }
  else { cost := 0, n := n, stopped := false }

/-- `CYapfCostRailT::PlatformLengthPenalty`: asymmetric penalty for a
destination platform shorter or longer than the vehicle. -/
def PlatformLengthPenalty (env : Env) (platform_length : Int) : Int :=
  let missing_platform_length : Int :=
    ((CeilDiv env.vehicleLength TILE_SIZE : Nat) : Int) - platform_length
  if missing_platform_length < 0 then
    (env.settings.rail_longer_platform_penalty : Int) +
      (env.settings.rail_longer_platform_per_tile_penalty : Int) * (-missing_platform_length)
  else if missing_platform_length > 0 then
    (env.settings.rail_shorter_platform_penalty : Int) +
      (env.settings.rail_shorter_platform_per_tile_penalty : Int) * missing_platform_length
  else 0

/-- `CYapfCostRailT::CanUseGlobalCache`: caching enabled, a parent exists,
and the parent is already past the whole signal look-ahead window. -/
def CanUseGlobalCache (env : Env) (n : Node) : Bool :=
  !env.disable_cache &&
    (match n.parent with
      | none => false
      | some p => decide ((sig_look_ahead_costs env.settings).length ≤ p.num_signals_passed))

/-- The bounded waypoint probe of `PfCalcCost` (the inner
`while (ft.Follow(t, td))` loop with its `max_tiles` counter): follow the
single track ahead of the waypoint until a safe waiting position, a junction,
a loop back to the waypoint or the tile budget stops it.  Returns the final
tile together with `some td`, or `none` for `INVALID_TRACKDIR`. -/
def wpWalk (env : Env) (curTile : TileIndex) : Nat → TileIndex → Trackdir →
    TileIndex × Option Trackdir
  | 0, t, td => (t, some td)
  | maxTiles + 1, t, td =>
    match env.followWp t td with
    | .fail _ => (t, some td)
    | .ok r =>
      let t1 := r.new_tile
      if t1 = curTile ∨ maxTiles = 0 then (t1, none)
      else if killFirstBit r.new_td_bits ≠ 0 then (t1, none)
      else
        let td1 := findFirstBit r.new_td_bits
        if env.isSafeWaitingPosition t1 td1 then (t1, some td1)
        else wpWalk env curTile maxTiles t1 td1

/-- The local state of one `PfCalcCost` walk: the node being priced, the
previous and current `TILE`, the follower data that entered the current tile,
the three cost accumulators, the local `end_segment_reason`, and whether
`stopped_on_first_two_way_signal` was raised. -/
structure LoopSt where
  n : Node
  prev : TILE
  cur : TILE
  tfi : FollowRes
  segment_entry_cost : Int
  segment_cost : Int
  extra_cost : Int
  esr : EndSegmentReasons
  stopped : Bool
deriving DecidableEq, Repr

/-- Outcome of one iteration of the `PfCalcCost` walk: leave the loop
(`break`) or go on with the updated state. -/
inductive IterOut
  | brk (st : LoopSt)
  | cont (st : LoopSt)
deriving DecidableEq, Repr

/-- The potential-target segment-closing tests of the `PfCalcCost` loop body
("Tests for 'potential target' reasons to close the segment"): depot
reversal penalty, depot, waypoint (with its safe-waiting-position probe
adding the last-red penalty for occupied waypoints), pass-through station
penalty, and the track-masking safe-tile test.  Takes the segment cost
accumulated so far and the current local reasons; returns the updated
segment cost, extra cost and reasons. -/
def pfTargetCheck (env : Env) (st : LoopSt) (sc5 : Int) (esr0 : EndSegmentReasons) :
    Int × Int × EndSegmentReasons :=
  if st.cur.tile = st.prev.tile then
    (sc5 + (env.settings.rail_depot_reverse_penalty : Int), st.extra_cost, esr0)
  else if env.isRailDepotTile st.cur.tile then
    (sc5, st.extra_cost, { esr0 with depot := true })
  else if st.cur.tile_type = TileType.station ∧ env.isRailWaypoint st.cur.tile then
    let ex :=
      if env.orderIsGotoWaypoint ∧ env.getStationIndex st.cur.tile = env.orderDestination ∧
          ¬(env.waypointIsSingleTile env.orderDestination = true) then
        match wpWalk env st.cur.tile 20 st.cur.tile st.cur.td with
        | (_, none) => st.extra_cost + (env.settings.rail_lastred_penalty : Int)
        | (t, some td) =>
          if ¬(env.isSafeWaitingPosition t td = true) ∨
              ¬(env.isWaitingPositionFree t td = true) then
            st.extra_cost + (env.settings.rail_lastred_penalty : Int)
          else st.extra_cost
      else st.extra_cost
    (sc5, ex, { esr0 with waypoint := true })
  else if st.tfi.is_station then
    (sc5 + ((env.settings.rail_station_penalty * (st.tfi.tiles_skipped + 1) : Nat) : Int),
      st.extra_cost, { esr0 with station := true })
  else if env.doTrackMasking ∧ st.cur.tile_type = TileType.railway then
    if env.hasSignalOnTrackdir st.cur.tile st.cur.td ∧
        ¬(IsPbsSignal (env.getSignalType st.cur.tile (env.trackdirToTrack st.cur.td)) = true) then
      (sc5, st.extra_cost, { esr0 with safeTile := true })
    else (sc5, st.extra_cost, esr0)
  else (sc5, st.extra_cost, esr0)

/-- The min/max speed penalties of the `PfCalcCost` loop body (applied only
inside the look-ahead radius — the guard sits at the call site). -/
def pfSpeedPenalty (env : Env) (tfi : FollowRes) (ex1 : Int) : Int :=
  let max_veh_speed := min env.vehicleDisplayMaxSpeed env.orderMaxSpeed
  let a : Nat :=
    if tfi.max_speed < max_veh_speed then
      (YAPF_TILE_LENGTH * (max_veh_speed - tfi.max_speed) * (4 + tfi.tiles_skipped)) /
        max_veh_speed
    else 0
  let b : Nat :=
    if tfi.min_speed > max_veh_speed then
      YAPF_TILE_LENGTH * (tfi.min_speed - max_veh_speed)
    else 0
  ex1 + (a : Int) + (b : Int)

/-- The per-tile cost additions of the `PfCalcCost` loop body (source lines
between the `no_entry_cost` label and the reservation cost): base tile cost,
skipped tunnel/bridge/station tiles, slope cost, signal cost and reservation
cost added onto the segment cost accumulated so far. -/
def pfTileCosts (env : Env) (st : LoopSt) : Int :=
  st.segment_cost + OneTileCost env st.cur.tile st.cur.td +
    (YAPF_TILE_LENGTH : Int) * (st.tfi.tiles_skipped : Int) +
    SlopeCost env st.cur.tile st.cur.td +
    (SignalCost env st.n st.cur.tile st.cur.td).cost +
    ReservationCost env (SignalCost env st.n st.cur.tile st.cur.td).n st.cur.tile st.cur.td
      st.tfi.tiles_skipped

/-- The per-tile cost section of the `PfCalcCost` loop body (from the
`no_entry_cost` label through the speed penalties): the per-tile cost
additions, the node updates made by `SignalCost`, the reload of the local
`end_segment_reason` from the node's segment, the potential-target
segment-closing tests, and the speed penalties inside the look-ahead
radius. -/
def pfTileSection (env : Env) (st : LoopSt) : LoopSt :=
  let sres := SignalCost env st.n st.cur.tile st.cur.td
  let t := pfTargetCheck env st (pfTileCosts env st) sres.n.segment.end_segment_reason
  let ex2 :=
    if sres.n.num_signals_passed < (sig_look_ahead_costs env.settings).length then
      pfSpeedPenalty env st.tfi t.2.1
    else t.2.1
  { st with n := sres.n, segment_cost := t.1, extra_cost := ex2, esr := t.2.2,
            stopped := st.stopped || sres.stopped }

/-- The maximum-cost test of the `PfCalcCost` loop body ("Finish if we
already exceeded the maximum path cost"): set `PathTooLong` when a positive
`max_cost` bound is exceeded by `parent_cost + segment_entry_cost +
segment_cost`. -/
def pfMaxCostCheck (env : Env) (parent_cost : Int) (st : LoopSt) : LoopSt :=
  if 0 < env.max_cost ∧
      env.max_cost < parent_cost + st.segment_entry_cost + st.segment_cost then
    { st with esr := { st.esr with pathTooLong := true } }
  else st

/-- The look-at-the-next-tile track-masking tests of the `PfCalcCost` loop
body (source comment "Possible safe tile"): a PBS signal on the next tile
sets `SafeTile`; the back of a one-way PBS signal sets `SafeTile` and
`DeadEnd` and adds the last-red-exit penalty.  Returns the updated local
reasons and extra cost. -/
def pfNextTileMask (env : Env) (st : LoopSt) (next : TILE) : EndSegmentReasons × Int :=
  if env.doTrackMasking ∧ env.tileType next.tile = TileType.railway then
    if env.hasSignalOnTrackdir next.tile next.td ∧
        IsPbsSignal (env.getSignalType next.tile (env.trackdirToTrack next.td)) = true then
      ({ st.esr with safeTile := true }, st.extra_cost)
    else if env.hasSignalOnTrackdir next.tile (env.reverseTrackdir next.td) ∧
        env.getSignalType next.tile (env.trackdirToTrack next.td) = SignalType.pbsOneway then
      ({ st.esr with safeTile := true, deadEnd := true },
        st.extra_cost + (env.settings.rail_lastred_exit_penalty : Int))
    else (st.esr, st.extra_cost)
  else (st.esr, st.extra_cost)

/-- The move-to-next-tile section of the `PfCalcCost` loop body: follow the
track (turning failures into `DeadEnd`/`RailType` and possibly `SafeTile`),
close the segment on a choice, inspect the next tile (PBS safe-tile tests,
rail-type change, infinite loop, overlong segment), break when any reason bit
is set, and otherwise shift `prev`/`cur` and continue. -/
def pfMoveSection (env : Env) (key_tile : TileIndex) (key_td : Trackdir)
    (st : LoopSt) : IterOut :=
  match env.follow st.cur.tile st.cur.td with
  | .fail rail_road_type =>
    let esr3 :=
      if rail_road_type then { st.esr with railType := true } else { st.esr with deadEnd := true }
    let esr4 :=
      if env.doTrackMasking ∧ ¬(env.hasOnewaySignalBlockingTrackdir st.cur.tile st.cur.td = true) then
        { esr3 with safeTile := true }
      else esr3
    .brk { st with esr := esr4 }
  | .ok r =>
    if killFirstBit r.new_td_bits ≠ 0 then
      .brk { st with esr := { st.esr with choiceFollows := true } }
    else
      let next := mkTILE env r.new_tile (findFirstBit r.new_td_bits)
      let m := pfNextTileMask env st next
      if next.rail_type ≠ st.cur.rail_type then
        .brk { st with extra_cost := m.2, esr := { m.1 with railType := true } }
      else if next.tile = key_tile ∧ next.td = key_td then
        .brk { st with extra_cost := m.2, esr := { m.1 with infiniteLoop := true } }
      else if MAX_SEGMENT_COST < st.segment_cost ∧ env.tileType r.new_tile = TileType.railway then
        .brk { st with extra_cost := m.2, esr := { m.1 with segmentTooLong := true } }
      else if m.1.any then
        .brk { st with extra_cost := m.2, esr := m.1 }
      else
        .cont { st with prev := st.cur, cur := next, tfi := r, extra_cost := m.2, esr := m.1 }

/-- The tail of one `PfCalcCost` loop iteration, from the `no_entry_cost`
label to the end of the `for (;;)` body: the per-tile cost section, the
maximum-cost test, and the move to the next tile. -/
def pfIterTail (env : Env) (parent_cost : Int) (key_tile : TileIndex) (key_td : Trackdir)
    (st : LoopSt) : IterOut :=
  pfMoveSection env key_tile key_td (pfMaxCostCheck env parent_cost (pfTileSection env st))

/-- One full `PfCalcCost` loop iteration starting at the top of the
`for (;;)` body: the transition cost, its booking as segment entry cost on
the first pass (where the cached segment is also reused if present) or as
segment cost later, then the iteration tail. -/
def pfIterFull (env : Env) (parent_cost : Int) (is_cached_segment : Bool)
    (key_tile : TileIndex) (key_td : Trackdir) (st : LoopSt) : IterOut :=
  let transition_cost := CurveCost env st.prev.td st.cur.td +
    SwitchCost env st.prev.tile st.cur.tile (env.trackdirToExitdir st.prev.td)
  if st.segment_cost = 0 then
    let st1 := { st with segment_entry_cost := transition_cost }
    if is_cached_segment then
      let segment := st1.n.segment
      let n2 :=
        match segment.last_signal_tile with
        | some lst =>
          let sig_state := env.getSignalStateByTrackdir lst segment.last_signal_td
          let is_red := sig_state == SignalState.red
          let na := { st1.n with flags := { st1.n.flags with last_signal_was_red := is_red } }
          if is_red then
            { na with last_red_signal_type :=
                env.getSignalType lst (env.trackdirToTrack segment.last_signal_td) }
          else na
        | none => st1.n
      .brk { st1 with n := n2, segment_cost := segment.cost,
                      esr := segment.end_segment_reason,
                      cur := mkTILE env n2.segment.last_tile n2.segment.last_td }
    else pfIterTail env parent_cost key_tile key_td st1
  else
    pfIterTail env parent_cost key_tile key_td
      { st with segment_cost := st.segment_cost + transition_cost }

/-- The `for (;;)` loop of `PfCalcCost`, driven by explicit fuel. -/
def pfLoop (env : Env) (parent_cost : Int) (is_cached_segment : Bool)
    (key_tile : TileIndex) (key_td : Trackdir) : Nat → LoopSt → Option LoopSt
  | 0, _ => none
  | fuel + 1, st =>
    match pfIterFull env parent_cost is_cached_segment key_tile key_td st with
    | .brk st1 => some st1
    | .cont st1 => pfLoop env parent_cost is_cached_segment key_tile key_td fuel st1

/-- The result of `PfCalcCost`: the returned `bool`, the updated node, the
cost components (`parent_cost`, `segment_entry_cost`, `segment_cost`,
`extra_cost`), the final local `end_segment_reason`, whether the target was
seen, and the `stopped_on_first_two_way_signal` flag. -/
structure PfRes where
  ret : Bool
  n : Node
  parent_cost : Int
  segment_entry_cost : Int
  segment_cost : Int
  extra_cost : Int
  esr : EndSegmentReasons
  target_seen : Bool
  stopped : Bool
deriving DecidableEq, Repr

/-- The last-red extra costs applied when the target was seen ("Last-red and
last-red-exit penalties"): the exit-signal penalty for a red pre-signal
exit, the plain last-red penalty for other non-PBS red signals. -/
def pfLastRedExtra (env : Env) (ex : Int) (n1 : Node) : Int :=
  if n1.flags.last_signal_was_red then
    if n1.last_red_signal_type = SignalType.exit then
      ex + (env.settings.rail_lastred_exit_penalty : Int)
    else if ¬(IsPbsSignal n1.last_red_signal_type = true) then
      ex + (env.settings.rail_lastred_penalty : Int)
    else ex
  else ex

/-- The code of `PfCalcCost` after the walk (source lines from the
`PathTooLong` early return to the final cost sum): abort on `PathTooLong`,
detect the target, write the segment back to the cache if it was computed
fresh, abort on the no-continue reasons, apply the target-only extra costs
(last red signal, destination platform length) and store the total cost. -/
def pfPost (env : Env) (parent_cost : Int) (is_cached_segment : Bool) (st : LoopSt) : PfRes :=
  let base : PfRes :=
    { ret := false, n := st.n, parent_cost := parent_cost,
      segment_entry_cost := st.segment_entry_cost, segment_cost := st.segment_cost,
      extra_cost := st.extra_cost, esr := st.esr, target_seen := false, stopped := st.stopped }
  if st.esr.pathTooLong then base
  else
    let target_seen :=
      st.esr.anyOf ESRF_POSSIBLE_TARGET && env.pfDetectDestination st.cur.tile st.cur.td
    let n1 :=
      if ¬(is_cached_segment = true) then
        { st.n with segment := { st.n.segment with
            cost := st.segment_cost,
            end_segment_reason := st.esr.inter ESRF_CACHED_MASK,
            last_tile := st.cur.tile,
            last_td := st.cur.td } }
      else st.n
    if ¬(target_seen = true) ∧ st.esr.anyOf ESRF_ABORT_PF_MASK then
      { base with n := n1 }
    else
      let ex1 : Int :=
        if target_seen then
          if st.esr.station then
            let platform_length := env.getPlatformLength n1.segment.last_tile
              (env.reverseDiagDir (env.trackdirToExitdir n1.segment.last_td))
            pfLastRedExtra env st.extra_cost n1 -
              ((env.settings.rail_station_penalty * platform_length : Nat) : Int) +
              PlatformLengthPenalty env (platform_length : Int)
          else pfLastRedExtra env st.extra_cost n1
        else st.extra_cost
      let n2 :=
        if target_seen then { n1 with flags := { n1.flags with target_seen := true } } else n1
      { base with
        ret := true,
        n := { n2 with cost := parent_cost + st.segment_entry_cost + st.segment_cost + ex1 },
        extra_cost := ex1,
        target_seen := target_seen }

/-- `CYapfCostRailT::PfCalcCost`.  `tf` is the follower data of the move that
created the node (its `tiles_skipped`, `is_station` and speed-limit data are
read for the first tile of the walk).  A node without parent starts at the
`no_entry_cost` label, skipping the first transition cost and the cache
lookup.  `fuel` bounds the number of loop iterations; `none` means the fuel
ran out before the walk ended. -/
def PfCalcCost (env : Env) (fuel : Nat) (n : Node) (tf : FollowRes) : Option PfRes :=
  let is_cached_segment := decide (0 ≤ n.segment.cost)
  let parent_cost : Int := match n.parent with | some p => p.cost | none => 0
  let cur := mkTILE env n.key_tile n.key_td
  let prev := match n.parent with | some p => mkTILE env p.last_tile p.last_td | none => TILE.empty
  let st0 : LoopSt :=
    { n := n, prev := prev, cur := cur, tfi := tf, segment_entry_cost := 0,
      segment_cost := 0, extra_cost := 0, esr := {}, stopped := false }
  let stEnd : Option LoopSt :=
    match n.parent with
    | none =>
      match pfIterTail env parent_cost n.key_tile n.key_td st0 with
      | .brk st1 => some st1
      | .cont st1 => pfLoop env parent_cost is_cached_segment n.key_tile n.key_td fuel st1
    | some _ => pfLoop env parent_cost is_cached_segment n.key_tile n.key_td fuel st0
  stEnd.map (pfPost env parent_cost is_cached_segment)

/-- The state carried by either arm of an iteration outcome. -/
def IterOut.toSt : IterOut → LoopSt
  | .brk st => st
  | .cont st => st

/-- The invariant maintained by the `PfCalcCost` walk: the three cost
accumulators never go negative, and — when the run is pricing a cached
segment — the attached segment cost stays non-negative (nothing in the loop
writes it). -/
def LoopInv (is_cached_segment : Bool) (st : LoopSt) : Prop :=
  0 ≤ st.segment_entry_cost ∧ 0 ≤ st.segment_cost ∧ 0 ≤ st.extra_cost ∧
    (is_cached_segment = true → 0 ≤ st.n.segment.cost)

/-! ## Concrete fixtures for witness evaluations -/

/-- A small concrete settings table used by the witness evaluations. -/
def testSettings : YAPFSettings where
  rail_look_ahead_signal_p0 := 0
  rail_look_ahead_signal_p1 := 0
  rail_look_ahead_signal_p2 := 0
  rail_look_ahead_max_signals := 2
  rail_firstred_twoway_eol := true
  rail_slope_penalty := 10
  rail_curve45_penalty := 3
  rail_curve90_penalty := 6
  rail_doubleslip_penalty := 9
  rail_crossing_penalty := 8
  rail_pbs_station_penalty := 12
  rail_pbs_cross_penalty := 7
  rail_pbs_signal_back_penalty := 11
  rail_firstred_penalty := 55
  rail_firstred_exit_penalty := 66
  rail_lastred_penalty := 13
  rail_lastred_exit_penalty := 14
  rail_station_penalty := 20
  rail_longer_platform_penalty := 15
  rail_longer_platform_per_tile_penalty := 4
  rail_shorter_platform_penalty := 40
  rail_shorter_platform_per_tile_penalty := 5
  rail_depot_reverse_penalty := 50

/-- A small concrete environment for witnesses: plain railway everywhere, no
signals or reservations, and a follower that immediately reports a rail-type
mismatch (so every segment is one tile long). -/
def testEnv : Env where
  settings := testSettings
  max_cost := 0
  disable_cache := false
  treat_first_red_two_way_signal_as_eol := true
  allow90degTurns := false
  doTrackMasking := false
  tileType := fun _ => TileType.railway
  railType := fun _ => 1
  hasSignalOnTrackdir := fun _ _ => false
  getSignalStateByTrackdir := fun _ _ => SignalState.green
  getSignalType := fun _ _ => SignalType.block
  isOnewaySignal := fun _ _ => false
  stSlopeCost := fun _ _ => false
  isLevelCrossing := fun _ => false
  isPlainRailTile := fun _ => false
  getTrackBits := fun _ => 0
  diagdirReachesTracks := fun _ => 0
  isRailStationTile := fun _ => false
  hasStationReservation := fun _ => false
  getReservedTrackbits := fun _ => 0
  trackOverlapsTracks := fun _ _ => false
  isRailDepotTile := fun _ => false
  isRailWaypoint := fun _ => false
  getStationIndex := fun _ => 0
  getPlatformLength := fun _ _ => 0
  isSafeWaitingPosition := fun _ _ => false
  isWaitingPositionFree := fun _ _ => false
  hasOnewaySignalBlockingTrackdir := fun _ _ => false
  reverseTrackdir := fun td => td + 8
  trackdirToTrack := fun td => td % 8
  trackdirToExitdir := fun _ => 0
  reverseDiagDir := fun d => d
  tileOffsByDiagDir := fun _ => 1
  nextTrackdir := fun td => td
  trackdirCrossesTrackdirs := fun _ => 0
  isDiagonalTrackdir := fun _ => true
  follow := fun _ _ => .fail true
  followWp := fun _ _ => .fail true
  vehicleLength := 48
  vehicleDisplayMaxSpeed := 100
  orderMaxSpeed := 100
  orderIsGotoWaypoint := false
  orderDestination := 0
  waypointIsSingleTile := fun _ => false
  pfDetectDestination := fun _ _ => false

/-- `testEnv` with a red two-way block signal on every trackdir. -/
def envRedSignals : Env :=
  { testEnv with
    hasSignalOnTrackdir := fun _ _ => true,
    getSignalStateByTrackdir := fun _ _ => SignalState.red }

/-- `testEnv` with green two-way block signals and a negative look-ahead
polynomial constant. -/
def envGreenSignals : Env :=
  { testEnv with
    hasSignalOnTrackdir := fun _ _ => true,
    settings := { testSettings with rail_look_ahead_signal_p0 := -5 } }

/-- `testEnv` with a red one-way signal against every travel direction
(`reverseTrackdir` maps 0..7 to 8..15, so only the reverse trackdirs carry a
signal). -/
def envOnewayAgainst : Env :=
  { testEnv with
    hasSignalOnTrackdir := fun _ td => decide (8 ≤ td),
    getSignalStateByTrackdir := fun _ _ => SignalState.red,
    isOnewaySignal := fun _ _ => true }

/-- Follower data for the move that created the witness node. -/
def testTf : FollowRes where
  new_tile := 0
  new_td_bits := 1
  tiles_skipped := 0
  is_station := false
  max_speed := 100
  min_speed := 0

/-- The parent data of the witness node. -/
def testParent : ParentInfo where
  cost := 5
  last_tile := -10
  last_td := 0
  num_signals_passed := 0

/-- The witness node: key (0, 0), fresh segment, parent of cost 5. -/
def testNode : Node :=
  { key_tile := 0, key_td := 0, parent := some testParent }

/-- `testNode` with a valid cached segment attached (cost 60, ends in a
choice at tile 7). -/
def cachedNode : Node :=
  { testNode with
    segment := { cost := 60, end_segment_reason := { choiceFollows := true },
                 last_signal_tile := none, last_signal_td := 0, last_tile := 7, last_td := 0 } }

/-- A parentless node that has seen a choice (for the two-way-EOL branch). -/
def nodeChoiceSeen : Node :=
  { key_tile := 0, key_td := 0, parent := none, flags := { choice_seen := true } }

/-- A parentless node that has not seen a choice. -/
def nodeNoChoice : Node :=
  { key_tile := 0, key_td := 0, parent := none }

/-- Fallback result value (used only to name the result of concrete runs). -/
def dummyRes : PfRes where
  ret := false
  n := nodeNoChoice
  parent_cost := 0
  segment_entry_cost := 0
  segment_cost := 0
  extra_cost := 0
  esr := {}
  target_seen := false
  stopped := false

/-- The result of the fresh witness run of `PfCalcCost` on `testNode`. -/
def testRes : PfRes := (PfCalcCost testEnv 2 testNode testTf).getD dummyRes

/-! ## Basic lemmas about the embedded definitions -/

/-- The look-ahead table has exactly `rail_look_ahead_max_signals` entries. -/
theorem sig_look_ahead_costs_length (s : YAPFSettings) :
    (sig_look_ahead_costs s).length = s.rail_look_ahead_max_signals := by
  simp [sig_look_ahead_costs]

/-- Inside its range the look-ahead table holds the polynomial values. -/
theorem sig_look_ahead_costs_getD (s : YAPFSettings) (i : Nat)
    (h : i < s.rail_look_ahead_max_signals) :
    (sig_look_ahead_costs s).getD i 0 = lookAheadPoly s i := by
  simp [sig_look_ahead_costs, List.getD_eq_getElem?_getD, List.getElem?_map,
    List.getElem?_range, h]

/-- `getElem` form of `sig_look_ahead_costs_getD`. -/
theorem sig_look_ahead_costs_getElem (s : YAPFSettings) (i : Nat)
    (h : i < (sig_look_ahead_costs s).length) :
    (sig_look_ahead_costs s)[i] = lookAheadPoly s i := by
  simp [sig_look_ahead_costs]

/-! ## Sign bounds on the cost components -/

/-- Every tile contributes at least one cost unit (71 or 100 base). -/
theorem OneTileCost_pos (env : Env) (t : TileIndex) (d : Trackdir) :
    (1 : Int) ≤ OneTileCost env t d := by
  have hc := Int.natCast_nonneg env.settings.rail_crossing_penalty
  simp only [OneTileCost, YAPF_TILE_LENGTH, YAPF_TILE_CORNER_LENGTH]
  repeat' split
  all_goals omega

/-- The slope penalty is non-negative. -/
theorem SlopeCost_nonneg (env : Env) (t : TileIndex) (d : Trackdir) :
    0 ≤ SlopeCost env t d := by
  simp only [SlopeCost]
  split <;> simp

/-- The curve penalty is non-negative. -/
theorem CurveCost_nonneg (env : Env) (td1 td2 : Trackdir) :
    0 ≤ CurveCost env td1 td2 := by
  simp only [CurveCost]
  repeat' split
  all_goals simp

/-- The switch penalty is non-negative. -/
theorem SwitchCost_nonneg (env : Env) (t1 t2 : TileIndex) (e : DiagDirection) :
    0 ≤ SwitchCost env t1 t2 e := by
  simp only [SwitchCost]
  repeat' split
  all_goals simp

/-- The reservation penalty is non-negative. -/
theorem ReservationCost_nonneg (env : Env) (n : Node) (t : TileIndex) (d : Trackdir)
    (k : Nat) : 0 ≤ ReservationCost env n t d k := by
  simp only [ReservationCost]
  repeat' split
  all_goals exact Int.natCast_nonneg _

/-- The platform-length penalty is non-negative. -/
theorem PlatformLengthPenalty_nonneg (env : Env) (L : Int) :
    0 ≤ PlatformLengthPenalty env L := by
  simp only [PlatformLengthPenalty]
  split
  · exact add_nonneg (Int.natCast_nonneg _) (mul_nonneg (Int.natCast_nonneg _) (by omega))
  · split
    · exact add_nonneg (Int.natCast_nonneg _) (mul_nonneg (Int.natCast_nonneg _) (by omega))
    · exact le_refl 0

/-- `SignalCost` returns at least the `-1` abort sentinel: the only negative
return value.  (All penalties it books are non-negative.) -/
theorem SignalCost_cost_ge (env : Env) (n : Node) (t : TileIndex) (d : Trackdir) :
    -1 ≤ (SignalCost env n t d).cost := by
  simp only [SignalCost]
  split
  · split
    · simp
    · split
      · simp
      · rename_i c n3 heq
        have hb := Int.natCast_nonneg env.settings.rail_pbs_signal_back_penalty
        have hf := Int.natCast_nonneg env.settings.rail_firstred_penalty
        have he := Int.natCast_nonneg env.settings.rail_firstred_exit_penalty
        repeat' split at heq
        all_goals (try (exact Sum.noConfusion heq))
        all_goals simp only [Sum.inr.injEq, Prod.mk.injEq] at heq
        all_goals obtain ⟨h2, h3⟩ := heq
        all_goals subst h2
        all_goals subst h3
        all_goals simp only [Node.passSignal]
        all_goals repeat' split
        all_goals omega
  · simp

/-- `SignalCost` never touches the cached segment cost. -/
theorem SignalCost_segment_cost_eq (env : Env) (n : Node) (t : TileIndex) (d : Trackdir) :
    (SignalCost env n t d).n.segment.cost = n.segment.cost := by
  simp only [SignalCost]
  split
  · split
    · simp [Node.setSegmentDeadEnd]
    · split
      · rename_i na heq
        repeat' split at heq
        all_goals simp at heq
        all_goals subst heq
        all_goals simp [Node.setSegmentDeadEnd]
      · rename_i c n3 heq
        repeat' split at heq
        all_goals simp at heq
        all_goals obtain ⟨h2, h3⟩ := heq
        all_goals subst h2
        all_goals subst h3
        all_goals simp [Node.passSignal]
  · simp

/-! ## Structural lemmas about the walk sections -/

/-- The potential-target tests never decrease the segment cost. -/
theorem pfTargetCheck_fst_ge (env : Env) (st : LoopSt) (sc5 : Int) (esr0 : EndSegmentReasons) :
    sc5 ≤ (pfTargetCheck env st sc5 esr0).1 := by
  have h1 := Int.natCast_nonneg env.settings.rail_depot_reverse_penalty
  have h2 := Int.natCast_nonneg (env.settings.rail_station_penalty * (st.tfi.tiles_skipped + 1))
  simp only [pfTargetCheck]
  repeat' split
  all_goals (try dsimp only)
  all_goals omega

/-- The potential-target tests never decrease the extra cost. -/
theorem pfTargetCheck_snd_ge (env : Env) (st : LoopSt) (sc5 : Int) (esr0 : EndSegmentReasons) :
    st.extra_cost ≤ (pfTargetCheck env st sc5 esr0).2.1 := by
  have h1 := Int.natCast_nonneg env.settings.rail_lastred_penalty
  simp only [pfTargetCheck]
  repeat' split
  all_goals (try dsimp only)
  all_goals first
    | exact le_refl _
    | exact le_add_of_nonneg_right h1

/-- The speed penalties never decrease the extra cost. -/
theorem pfSpeedPenalty_ge (env : Env) (tfi : FollowRes) (ex1 : Int) :
    ex1 ≤ pfSpeedPenalty env tfi ex1 := by
  simp only [pfSpeedPenalty]
  have h : ∀ a b : Nat, ex1 ≤ ex1 + (a : Int) + (b : Int) := by
    intro a b
    have := Int.natCast_nonneg a
    have := Int.natCast_nonneg b
    omega
  exact h _ _

/-- The per-tile cost additions never decrease the segment cost (every tile
adds at least the base cost 71 or 100; the only negative term is the `-1`
abort sentinel of `SignalCost`). -/
theorem pfTileCosts_ge (env : Env) (st : LoopSt) :
    st.segment_cost ≤ pfTileCosts env st := by
  have h1 := OneTileCost_pos env st.cur.tile st.cur.td
  have h2 := mul_nonneg (Int.natCast_nonneg YAPF_TILE_LENGTH)
    (Int.natCast_nonneg st.tfi.tiles_skipped)
  have h3 := SlopeCost_nonneg env st.cur.tile st.cur.td
  have h4 := SignalCost_cost_ge env st.n st.cur.tile st.cur.td
  have h5 := ReservationCost_nonneg env (SignalCost env st.n st.cur.tile st.cur.td).n
    st.cur.tile st.cur.td st.tfi.tiles_skipped
  simp only [pfTileCosts]
  linarith

/-- The tile section leaves `prev`, `cur`, `tfi` and the segment entry cost
unchanged. -/
theorem pfTileSection_frame (env : Env) (st : LoopSt) :
    (pfTileSection env st).prev = st.prev ∧ (pfTileSection env st).cur = st.cur ∧
    (pfTileSection env st).tfi = st.tfi ∧
    (pfTileSection env st).segment_entry_cost = st.segment_entry_cost :=
  ⟨rfl, rfl, rfl, rfl⟩

/-- The tile section does not write the attached segment's cached cost. -/
theorem pfTileSection_segment_cost_node (env : Env) (st : LoopSt) :
    (pfTileSection env st).n.segment.cost = st.n.segment.cost :=
  SignalCost_segment_cost_eq env st.n st.cur.tile st.cur.td

/-- The tile section never decreases the segment cost. -/
theorem pfTileSection_sc_ge (env : Env) (st : LoopSt) :
    st.segment_cost ≤ (pfTileSection env st).segment_cost := by
  have h1 := pfTargetCheck_fst_ge env st (pfTileCosts env st)
    (SignalCost env st.n st.cur.tile st.cur.td).n.segment.end_segment_reason
  have h2 := pfTileCosts_ge env st
  simp only [pfTileSection]
  linarith

/-- The tile section never decreases the extra cost. -/
theorem pfTileSection_extra_ge (env : Env) (st : LoopSt) :
    st.extra_cost ≤ (pfTileSection env st).extra_cost := by
  have h1 := pfTargetCheck_snd_ge env st (pfTileCosts env st)
    (SignalCost env st.n st.cur.tile st.cur.td).n.segment.end_segment_reason
  have h2 := pfSpeedPenalty_ge env st.tfi (pfTargetCheck env st (pfTileCosts env st)
    (SignalCost env st.n st.cur.tile st.cur.td).n.segment.end_segment_reason).2.1
  simp only [pfTileSection]
  split
  · linarith
  · linarith

/-- The maximum-cost check only touches the local reasons. -/
theorem pfMaxCostCheck_frame (env : Env) (pc : Int) (st : LoopSt) :
    (pfMaxCostCheck env pc st).n = st.n ∧
    (pfMaxCostCheck env pc st).segment_entry_cost = st.segment_entry_cost ∧
    (pfMaxCostCheck env pc st).segment_cost = st.segment_cost ∧
    (pfMaxCostCheck env pc st).extra_cost = st.extra_cost := by
  simp only [pfMaxCostCheck]
  split
  · exact ⟨rfl, rfl, rfl, rfl⟩
  · exact ⟨rfl, rfl, rfl, rfl⟩

/-- The maximum-cost check sets `PathTooLong` when a positive bound is
exceeded. -/
theorem pfMaxCostCheck_ptl (env : Env) (pc : Int) (st : LoopSt)
    (h1 : 0 < env.max_cost)
    (h2 : env.max_cost < pc + st.segment_entry_cost + st.segment_cost) :
    (pfMaxCostCheck env pc st).esr.pathTooLong = true := by
  simp only [pfMaxCostCheck]
  rw [if_pos ⟨h1, h2⟩]

/-- The next-tile mask never decreases the extra cost. -/
theorem pfNextTileMask_snd_ge (env : Env) (st : LoopSt) (next : TILE) :
    st.extra_cost ≤ (pfNextTileMask env st next).2 := by
  have h1 := Int.natCast_nonneg env.settings.rail_lastred_exit_penalty
  simp only [pfNextTileMask]
  repeat' split
  all_goals (try dsimp only)
  all_goals omega

/-- The next-tile mask preserves a set `PathTooLong` bit. -/
theorem pfNextTileMask_ptl (env : Env) (st : LoopSt) (next : TILE)
    (h : st.esr.pathTooLong = true) :
    (pfNextTileMask env st next).1.pathTooLong = true := by
  simp only [pfNextTileMask]
  repeat' split
  all_goals (try dsimp only)
  all_goals exact h

/-- The move section leaves the node, the entry cost, the segment cost and
the stopped flag unchanged. -/
theorem pfMoveSection_frame (env : Env) (kt : TileIndex) (kd : Trackdir) (st : LoopSt) :
    ((pfMoveSection env kt kd st).toSt).n = st.n ∧
    ((pfMoveSection env kt kd st).toSt).segment_entry_cost = st.segment_entry_cost ∧
    ((pfMoveSection env kt kd st).toSt).segment_cost = st.segment_cost := by
  simp only [pfMoveSection]
  repeat' split
  all_goals exact ⟨rfl, rfl, rfl⟩

/-- The move section never decreases the extra cost. -/
theorem pfMoveSection_extra_ge (env : Env) (kt : TileIndex) (kd : Trackdir) (st : LoopSt) :
    st.extra_cost ≤ ((pfMoveSection env kt kd st).toSt).extra_cost := by
  simp only [pfMoveSection]
  repeat' split
  all_goals simp only [IterOut.toSt]
  all_goals
    (first
      | exact le_refl _
      | exact pfNextTileMask_snd_ge env st _)

/-- The move section preserves a set `PathTooLong` bit. -/
theorem pfMoveSection_ptl (env : Env) (kt : TileIndex) (kd : Trackdir) (st : LoopSt)
    (h : st.esr.pathTooLong = true) :
    ((pfMoveSection env kt kd st).toSt).esr.pathTooLong = true := by
  simp only [pfMoveSection]
  repeat' split
  all_goals simp only [IterOut.toSt]
  all_goals
    (first
      | exact h
      | exact pfNextTileMask_ptl env st _ h)

/-- The iteration tail preserves the node's cached segment cost and the
entry cost, and never decreases the segment and extra costs. -/
theorem pfIterTail_facts (env : Env) (pc : Int) (kt : TileIndex) (kd : Trackdir) (st : LoopSt) :
    ((pfIterTail env pc kt kd st).toSt).n.segment.cost = st.n.segment.cost ∧
    ((pfIterTail env pc kt kd st).toSt).segment_entry_cost = st.segment_entry_cost ∧
    st.segment_cost ≤ ((pfIterTail env pc kt kd st).toSt).segment_cost ∧
    st.extra_cost ≤ ((pfIterTail env pc kt kd st).toSt).extra_cost := by
  obtain ⟨hmn, hme, hms⟩ :=
    pfMoveSection_frame env kt kd (pfMaxCostCheck env pc (pfTileSection env st))
  obtain ⟨hcn, hce, hcs, hcx⟩ := pfMaxCostCheck_frame env pc (pfTileSection env st)
  obtain ⟨_, _, _, hte⟩ := pfTileSection_frame env st
  simp only [pfIterTail]
  refine ⟨?_, ?_, ?_, ?_⟩
  · rw [hmn, hcn]; exact pfTileSection_segment_cost_node env st
  · rw [hme, hce, hte]
  · rw [hms, hcs]; exact pfTileSection_sc_ge env st
  · calc st.extra_cost ≤ (pfTileSection env st).extra_cost := pfTileSection_extra_ge env st
      _ = (pfMaxCostCheck env pc (pfTileSection env st)).extra_cost := hcx.symm
      _ ≤ _ := pfMoveSection_extra_ge env kt kd _

/-- If a positive `max_cost` bound is exceeded by the cost components of the
state an iteration tail ends with, that state carries the `PathTooLong`
reason (the test saw exactly these values, and every later step of the tail
only adds reason bits). -/
theorem pfIterTail_ptl (env : Env) (pc : Int) (kt : TileIndex) (kd : Trackdir) (st : LoopSt)
    (h1 : 0 < env.max_cost)
    (h2 : env.max_cost < pc + ((pfIterTail env pc kt kd st).toSt).segment_entry_cost +
      ((pfIterTail env pc kt kd st).toSt).segment_cost) :
    ((pfIterTail env pc kt kd st).toSt).esr.pathTooLong = true := by
  obtain ⟨hmn, hme, hms⟩ :=
    pfMoveSection_frame env kt kd (pfMaxCostCheck env pc (pfTileSection env st))
  obtain ⟨hcn, hce, hcs, hcx⟩ := pfMaxCostCheck_frame env pc (pfTileSection env st)
  simp only [pfIterTail] at h2 ⊢
  apply pfMoveSection_ptl
  apply pfMaxCostCheck_ptl env pc (pfTileSection env st) h1
  rw [hme, hce, hms, hcs] at h2
  exact h2

/-- One full loop iteration preserves the walk invariant. -/
theorem pfIterFull_inv (env : Env) (pc : Int) (c : Bool) (kt : TileIndex) (kd : Trackdir)
    (st : LoopSt) (h : LoopInv c st) :
    LoopInv c ((pfIterFull env pc c kt kd st).toSt) := by
  obtain ⟨h1, h2, h3, h4⟩ := h
  have hcurve := CurveCost_nonneg env st.prev.td st.cur.td
  have hswitch := SwitchCost_nonneg env st.prev.tile st.cur.tile (env.trackdirToExitdir st.prev.td)
  have htail : ∀ st2 : LoopSt, LoopInv c st2 → LoopInv c ((pfIterTail env pc kt kd st2).toSt) := by
    intro st2 hI
    obtain ⟨g1, g2, g3, g4⟩ := hI
    obtain ⟨f1, f2, f3, f4⟩ := pfIterTail_facts env pc kt kd st2
    exact ⟨f2 ▸ g1, le_trans g2 f3, le_trans g3 f4, fun hcc => f1 ▸ g4 hcc⟩
  simp only [pfIterFull]
  split
  · split
    · rename_i hc
      refine ⟨?_, ?_, ?_, ?_⟩
      · exact add_nonneg hcurve hswitch
      · exact h4 hc
      · exact h3
      · intro hcc
        simp only [IterOut.toSt]
        split
        · split
          · exact h4 hcc
          · exact h4 hcc
        · exact h4 hcc
    · exact htail _ ⟨add_nonneg hcurve hswitch, h2, h3, h4⟩
  · exact htail _ ⟨h1, add_nonneg h2 (add_nonneg hcurve hswitch), h3, h4⟩

/-- The loop preserves the walk invariant. -/
theorem pfLoop_inv (env : Env) (pc : Int) (c : Bool) (kt : TileIndex) (kd : Trackdir) :
    ∀ (fuel : Nat) (st st' : LoopSt), LoopInv c st →
      pfLoop env pc c kt kd fuel st = some st' → LoopInv c st' := by
  intro fuel
  induction fuel with
  | zero => intro st st' _ h; simp [pfLoop] at h
  | succ f ih =>
    intro st st' hI h
    simp only [pfLoop] at h
    cases hit : pfIterFull env pc c kt kd st with
    | brk st1 =>
      rw [hit] at h
      cases h
      have hinv := pfIterFull_inv env pc c kt kd st hI
      rwa [hit] at hinv
    | cont st1 =>
      rw [hit] at h
      have hinv := pfIterFull_inv env pc c kt kd st hI
      rw [hit] at hinv
      exact ih st1 st' hinv h

/-- A state the loop ends with came out of a `brk` of some full iteration. -/
theorem pfLoop_brk (env : Env) (pc : Int) (c : Bool) (kt : TileIndex) (kd : Trackdir) :
    ∀ (fuel : Nat) (st st' : LoopSt), pfLoop env pc c kt kd fuel st = some st' →
      ∃ stp, pfIterFull env pc c kt kd stp = .brk st' := by
  intro fuel
  induction fuel with
  | zero => intro st st' h; simp [pfLoop] at h
  | succ f ih =>
    intro st st' h
    simp only [pfLoop] at h
    cases hit : pfIterFull env pc c kt kd st with
    | brk st1 =>
      rw [hit] at h
      cases h
      exact ⟨st, hit⟩
    | cont st1 =>
      rw [hit] at h
      exact ih st1 st' h

/-- On a fresh segment a full iteration that breaks did so inside the
iteration tail (the cached-segment shortcut is never taken). -/
theorem pfIterFull_brk_tail (env : Env) (pc : Int) (kt : TileIndex) (kd : Trackdir)
    (stp st' : LoopSt) (h : pfIterFull env pc false kt kd stp = .brk st') :
    ∃ stq, pfIterTail env pc kt kd stq = .brk st' := by
  simp only [pfIterFull, Bool.false_eq_true, if_false] at h
  split at h
  · exact ⟨_, h⟩
  · exact ⟨_, h⟩

/-- `pfPost` passes the loop state's reasons and cost components through to
the result unchanged. -/
theorem pfPost_frame (env : Env) (pc : Int) (c : Bool) (st : LoopSt) :
    (pfPost env pc c st).esr = st.esr ∧ (pfPost env pc c st).parent_cost = pc ∧
    (pfPost env pc c st).segment_entry_cost = st.segment_entry_cost ∧
    (pfPost env pc c st).segment_cost = st.segment_cost := by
  simp only [pfPost]
  repeat' split
  all_goals exact ⟨rfl, rfl, rfl, rfl⟩

/-- A walk that ended with `PathTooLong` is rejected. -/
theorem pfPost_ret_false_of_ptl (env : Env) (pc : Int) (c : Bool) (st : LoopSt)
    (h : st.esr.pathTooLong = true) :
    (pfPost env pc c st).ret = false := by
  simp only [pfPost]
  rw [if_pos h]

/-- The last-red extras never decrease the extra cost. -/
theorem pfLastRedExtra_ge (env : Env) (ex : Int) (n1 : Node) :
    ex ≤ pfLastRedExtra env ex n1 := by
  have h1 := Int.natCast_nonneg env.settings.rail_lastred_exit_penalty
  have h2 := Int.natCast_nonneg env.settings.rail_lastred_penalty
  simp only [pfLastRedExtra]
  repeat' split
  all_goals first
    | exact le_refl _
    | exact le_add_of_nonneg_right h1
    | exact le_add_of_nonneg_right h2

/-- Masking with `ESRF_CACHED_MASK` only clears `PathTooLong`; a reason set
without it is unchanged. -/
theorem esr_inter_cached_of_not_ptl (e : EndSegmentReasons) (h : e.pathTooLong = false) :
    EndSegmentReasons.inter e ESRF_CACHED_MASK = e := by
  cases e
  simp_all [EndSegmentReasons.inter, ESRF_CACHED_MASK]

/-- When the walk did not end with `PathTooLong` and the segment was fresh,
`pfPost` writes the walk's results back into the node's segment: the segment
cost, the masked reasons, and the last tile/trackdir; the last-signal data
stored during the walk is kept. -/
theorem pfPost_writeback (env : Env) (pc : Int) (st : LoopSt)
    (hptl : st.esr.pathTooLong = false) :
    (pfPost env pc false st).n.segment.cost = st.segment_cost ∧
    (pfPost env pc false st).n.segment.end_segment_reason =
      EndSegmentReasons.inter st.esr ESRF_CACHED_MASK ∧
    (pfPost env pc false st).n.segment.last_tile = st.cur.tile ∧
    (pfPost env pc false st).n.segment.last_td = st.cur.td ∧
    (pfPost env pc false st).n.segment.last_signal_tile = st.n.segment.last_signal_tile ∧
    (pfPost env pc false st).n.segment.last_signal_td = st.n.segment.last_signal_td := by
  simp only [pfPost, hptl, Bool.false_eq_true, if_false]
  repeat' split
  all_goals simp_all

/-- For an accepted node the stored cost is the sum of the parent cost, the
entry cost, the segment cost and the (final) extra cost. -/
theorem pfPost_cost_formula (env : Env) (pc : Int) (c : Bool) (st : LoopSt) :
    (pfPost env pc c st).ret = true →
    (pfPost env pc c st).n.cost =
      pc + st.segment_entry_cost + st.segment_cost + (pfPost env pc c st).extra_cost := by
  simp only [pfPost]
  repeat' split
  all_goals intro h
  all_goals (try (simp at h; done))
  all_goals rfl

/-- The final extra cost either never dropped below the walk's extra cost,
or (destination station case) dropped by at most the refunded
passing-station penalty. -/
theorem pfPost_extra_ge (env : Env) (pc : Int) (c : Bool) (st : LoopSt) :
    st.extra_cost ≤ (pfPost env pc c st).extra_cost ∨
    ((pfPost env pc c st).esr.station = true ∧ (pfPost env pc c st).target_seen = true ∧
      st.extra_cost - ((env.settings.rail_station_penalty *
        env.getPlatformLength (pfPost env pc c st).n.segment.last_tile
          (env.reverseDiagDir (env.trackdirToExitdir (pfPost env pc c st).n.segment.last_td)) :
        Nat) : Int) ≤ (pfPost env pc c st).extra_cost) := by
  simp only [pfPost]
  repeat' split
  all_goals (try (left; exact le_refl _))
  all_goals (try (left; exact pfLastRedExtra_ge env st.extra_cost _))
  all_goals right
  all_goals dsimp only
  all_goals refine ⟨by assumption, by assumption, ?_⟩
  all_goals
    exact le_trans (sub_le_sub_right (pfLastRedExtra_ge env st.extra_cost _) _)
      (le_add_of_nonneg_right (PlatformLengthPenalty_nonneg env _))

/-- For an accepted node the stored cost is at least the parent cost,
provided the walk invariant holds and — when a destination station's
platform-length refund applies — the refunded station penalty does not
exceed the segment cost that accumulated it. -/
theorem pfPost_mono (env : Env) (pc : Int) (c : Bool) (st : LoopSt)
    (h1 : 0 ≤ st.segment_entry_cost) (h2 : 0 ≤ st.segment_cost) (h3 : 0 ≤ st.extra_cost) :
    (pfPost env pc c st).ret = true →
    ((pfPost env pc c st).esr.station = true → (pfPost env pc c st).target_seen = true →
      ((env.settings.rail_station_penalty *
        env.getPlatformLength (pfPost env pc c st).n.segment.last_tile
          (env.reverseDiagDir (env.trackdirToExitdir (pfPost env pc c st).n.segment.last_td)) :
        Nat) : Int) ≤ (pfPost env pc c st).segment_cost) →
    pc ≤ (pfPost env pc c st).n.cost := by
  intro hret hst
  have hform := pfPost_cost_formula env pc c st hret
  obtain ⟨hesr, hpar, hent, hsc⟩ := pfPost_frame env pc c st
  rcases pfPost_extra_ge env pc c st with hx | ⟨hsta, htgt, hx⟩
  · rw [hform]; linarith
  · have hb := hst hsta htgt
    rw [hsc] at hb
    rw [hform]
    linarith

/-- `PfCalcCost` on a node with a parent is the loop started from the
initial walk state, post-processed. -/
theorem PfCalcCost_parent_eq (env : Env) (fuel : Nat) (n : Node) (tf : FollowRes)
    (p : ParentInfo) (hpar : n.parent = some p) :
    PfCalcCost env fuel n tf =
      (pfLoop env p.cost (decide (0 ≤ n.segment.cost)) n.key_tile n.key_td fuel
        { n := n, prev := mkTILE env p.last_tile p.last_td,
          cur := mkTILE env n.key_tile n.key_td, tfi := tf, segment_entry_cost := 0,
          segment_cost := 0, extra_cost := 0, esr := {}, stopped := false }).map
        (pfPost env p.cost (decide (0 ≤ n.segment.cost))) := by
  simp only [PfCalcCost, hpar]

/-- `PfCalcCost` on a root node starts at the `no_entry_cost` label: the
first iteration is the bare iteration tail. -/
theorem PfCalcCost_root_eq (env : Env) (fuel : Nat) (n : Node) (tf : FollowRes)
    (hpar : n.parent = none) :
    PfCalcCost env fuel n tf =
      (match pfIterTail env 0 n.key_tile n.key_td
          { n := n, prev := TILE.empty, cur := mkTILE env n.key_tile n.key_td, tfi := tf,
            segment_entry_cost := 0, segment_cost := 0, extra_cost := 0, esr := {},
            stopped := false } with
        | .brk st1 => some st1
        | .cont st1 =>
          pfLoop env 0 (decide (0 ≤ n.segment.cost)) n.key_tile n.key_td fuel st1).map
        (pfPost env 0 (decide (0 ≤ n.segment.cost))) := by
  simp only [PfCalcCost, hpar]

/-- On a walk state with no cost accumulated yet and a cached segment, a full
iteration immediately breaks with the cached cost and reasons. -/
theorem pfIterFull_cached_props (env : Env) (pc : Int) (kt : TileIndex) (kd : Trackdir)
    (st : LoopSt) (hsc : st.segment_cost = 0) :
    ∃ stC, pfIterFull env pc true kt kd st = .brk stC ∧
      stC.segment_cost = st.n.segment.cost ∧ stC.esr = st.n.segment.end_segment_reason := by
  cases hob : pfIterFull env pc true kt kd st with
  | cont stC =>
    exfalso
    simp only [pfIterFull, hsc, eq_self_iff_true, if_true, ite_true] at hob
    exact IterOut.noConfusion hob
  | brk stC =>
    refine ⟨stC, rfl, ?_, ?_⟩ <;>
    · simp only [pfIterFull, hsc, eq_self_iff_true, if_true, ite_true] at hob
      injection hob with h
      subst h
      rfl

/-- A cached-segment node with a parent is priced in one iteration: the
result reports the cached cost and the cached end-segment reasons. -/
theorem PfCalcCost_cached (env : Env) (n : Node) (tf : FollowRes) (p : ParentInfo)
    (hpar : n.parent = some p) (hc : 0 ≤ n.segment.cost) :
    ∃ r, PfCalcCost env 1 n tf = some r ∧ r.segment_cost = n.segment.cost ∧
      r.esr = n.segment.end_segment_reason ∧ r.parent_cost = p.cost := by
  rw [PfCalcCost_parent_eq env 1 n tf p hpar]
  rw [decide_eq_true hc]
  obtain ⟨stC, hbrk, h1, h2⟩ := pfIterFull_cached_props env p.cost n.key_tile n.key_td
    { n := n, prev := mkTILE env p.last_tile p.last_td,
      cur := mkTILE env n.key_tile n.key_td, tfi := tf, segment_entry_cost := 0,
      segment_cost := 0, extra_cost := 0, esr := {}, stopped := false } rfl
  simp only [pfLoop, hbrk, Option.map_some']
  obtain ⟨hesr, hpc, hent, hsc⟩ := pfPost_frame env p.cost true stC
  exact ⟨_, rfl, by rw [hsc]; exact h1, by rw [hesr]; exact h2, hpc⟩

/-- A fresh walk wrapped in `PfCalcCost` ends in a state produced by a `brk`
of the iteration tail. -/
theorem stEnd_brk_tail (env : Env) (pc : Int) (kt : TileIndex) (kd : Trackdir)
    (fuel : Nat) (st0 st' : LoopSt)
    (h : (match pfIterTail env pc kt kd st0 with
      | .brk st1 => some st1
      | .cont st1 => pfLoop env pc false kt kd fuel st1) = some st') :
    ∃ stq, pfIterTail env pc kt kd stq = .brk st' := by
  cases hit : pfIterTail env pc kt kd st0 with
  | brk st1 =>
    rw [hit] at h
    cases h
    exact ⟨st0, hit⟩
  | cont st1 =>
    rw [hit] at h
    obtain ⟨stp, hp⟩ := pfLoop_brk env pc false kt kd fuel st1 st' h
    exact pfIterFull_brk_tail env pc kt kd stp st' hp

/-- A cached full iteration does not read `max_cost`: overriding the bound
leaves the iteration unchanged. -/
theorem pfIterFull_cached_max_irrel (env : Env) (M : Int) (pc : Int) (kt : TileIndex)
    (kd : Trackdir) (st : LoopSt) (hsc : st.segment_cost = 0) :
    pfIterFull { env with max_cost := M } pc true kt kd st = pfIterFull env pc true kt kd st := by
  simp only [pfIterFull, hsc, eq_self_iff_true, if_true, ite_true]
  rfl

/-- C1 (cache-vs-fresh-walk equivalence): when a fresh walk of `PfCalcCost`
(cached segment cost still the negative sentinel) succeeds without
`PathTooLong` and writes its segment back, re-running `PfCalcCost` on the
node carrying that cached segment, in the same map/signal/reservation
environment, reports exactly the same segment cost and the same end-segment
reasons as the fresh walk did. -/
theorem C1_cache_fresh_equiv (env : Env) (fuel : Nat) (n : Node) (tf tf2 : FollowRes)
    (p : ParentInfo) (r : PfRes)
    (hpar : n.parent = some p) (hfresh : n.segment.cost < 0)
    (hres : PfCalcCost env fuel n tf = some r) (hptl : r.esr.pathTooLong = false) :
    ∃ r2, PfCalcCost env 1 { n with segment := r.n.segment } tf2 = some r2 ∧
      r2.segment_cost = r.segment_cost ∧ r2.esr = r.esr := by
  rw [PfCalcCost_parent_eq env fuel n tf p hpar, decide_eq_false (not_le.mpr hfresh)] at hres
  rcases Option.map_eq_some'.mp hres with ⟨st, hloop, hpost⟩
  subst hpost
  obtain ⟨hesr, hpcost, hent, hsc⟩ := pfPost_frame env p.cost false st
  have hptl' : st.esr.pathTooLong = false := by rw [← hesr]; exact hptl
  obtain ⟨hwc, hwe, _, _, _, _⟩ := pfPost_writeback env p.cost st hptl'
  obtain ⟨h1, h2, h3, _⟩ := pfLoop_inv env p.cost false n.key_tile n.key_td fuel _ st
    ⟨le_refl 0, le_refl 0, le_refl 0, fun hx => Bool.noConfusion hx⟩ hloop
  have hcpos : 0 ≤ (pfPost env p.cost false st).n.segment.cost := by rw [hwc]; exact h2
  obtain ⟨r2, hr2, hr2sc, hr2esr, _⟩ :=
    PfCalcCost_cached env { n with segment := (pfPost env p.cost false st).n.segment } tf2 p
      hpar hcpos
  refine ⟨r2, hr2, ?_, ?_⟩
  · rw [hr2sc]
    show (pfPost env p.cost false st).n.segment.cost = (pfPost env p.cost false st).segment_cost
    rw [hwc, hsc]
  · rw [hr2esr]
    show (pfPost env p.cost false st).n.segment.end_segment_reason =
      (pfPost env p.cost false st).esr
    rw [hwe, hesr, esr_inter_cached_of_not_ptl st.esr hptl']

/-- C1 witness: the concrete fresh run on `testNode` succeeds, and its
written-back segment prices identically when reused. -/
theorem C1_cache_fresh_equiv_witness :
    ∃ r2, PfCalcCost testEnv 1 { testNode with segment := testRes.n.segment } testTf = some r2 ∧
      r2.segment_cost = testRes.segment_cost ∧ r2.esr = testRes.esr :=
  C1_cache_fresh_equiv testEnv 2 testNode testTf testTf testParent testRes (by decide)
    (by decide) (by decide) (by decide)

/-- C2 (monotone cost along the parent chain): whenever `PfCalcCost` accepts
a node with a parent, the stored node cost is at least the parent's cost.
The station hypothesis records the map consistency fact that the
platform-length refund subtracted for a destination station never exceeds
the segment cost that the station's tiles contributed. -/
theorem C2_cost_monotone (env : Env) (fuel : Nat) (n : Node) (tf : FollowRes)
    (p : ParentInfo) (r : PfRes)
    (hpar : n.parent = some p)
    (hres : PfCalcCost env fuel n tf = some r)
    (hret : r.ret = true)
    (hstation : r.esr.station = true → r.target_seen = true →
      ((env.settings.rail_station_penalty *
        env.getPlatformLength r.n.segment.last_tile
          (env.reverseDiagDir (env.trackdirToExitdir r.n.segment.last_td)) : Nat) : Int) ≤
        r.segment_cost) :
    p.cost ≤ r.n.cost := by
  rw [PfCalcCost_parent_eq env fuel n tf p hpar] at hres
  rcases Option.map_eq_some'.mp hres with ⟨st, hloop, hpost⟩
  obtain ⟨h1, h2, h3, _⟩ := pfLoop_inv env p.cost (decide (0 ≤ n.segment.cost)) n.key_tile
    n.key_td fuel _ st ⟨le_refl 0, le_refl 0, le_refl 0, fun hx => of_decide_eq_true hx⟩ hloop
  subst hpost
  exact pfPost_mono env p.cost _ st h1 h2 h3 hret hstation

/-- C2 witness: the concrete accepted run on `testNode` keeps the cost at or
above the parent's cost 5. -/
theorem C2_cost_monotone_witness : testParent.cost ≤ testRes.n.cost :=
  C2_cost_monotone testEnv 2 testNode testTf testParent testRes (by decide) (by decide)
    (by decide) (by decide)

/-- C4 (cost sum and maximum-cost reject): every accepted result's node cost
is the parent cost (zero for a root) plus entry, segment and extra cost; and
on a fresh walk whose final running sum `parent + entry + segment` exceeds a
positive `max_cost` bound, `PfCalcCost` returns `false`. -/
theorem C4_cost_sum_and_max_cost (env : Env) (fuel : Nat) (n : Node) (tf : FollowRes)
    (r : PfRes) (hres : PfCalcCost env fuel n tf = some r) :
    (r.ret = true →
      r.n.cost = r.parent_cost + r.segment_entry_cost + r.segment_cost + r.extra_cost ∧
      r.parent_cost = (match n.parent with | some p => p.cost | none => 0)) ∧
    (n.segment.cost < 0 → 0 < env.max_cost →
      env.max_cost < r.parent_cost + r.segment_entry_cost + r.segment_cost →
      r.ret = false) := by
  cases hp : n.parent with
  | some p =>
    rw [PfCalcCost_parent_eq env fuel n tf p hp] at hres
    rcases Option.map_eq_some'.mp hres with ⟨st, hloop, hpost⟩
    obtain ⟨hesr, hpcost, hent, hsc⟩ := pfPost_frame env p.cost (decide (0 ≤ n.segment.cost)) st
    subst hpost
    constructor
    · intro hret
      refine ⟨?_, ?_⟩
      · rw [hpcost, hent, hsc]
        exact pfPost_cost_formula env p.cost _ st hret
      · rw [hpcost]
    · intro hfresh hmax hsum
      rw [decide_eq_false (not_le.mpr hfresh)] at hloop
      obtain ⟨stp, hbrk⟩ := pfLoop_brk env p.cost false n.key_tile n.key_td fuel _ st hloop
      obtain ⟨stq, htq⟩ := pfIterFull_brk_tail env p.cost n.key_tile n.key_td stp st hbrk
      have hts : ((pfIterTail env p.cost n.key_tile n.key_td stq).toSt) = st := by
        rw [htq]
        rfl
      rw [hpcost, hent, hsc, ← hts] at hsum
      have hptl := pfIterTail_ptl env p.cost n.key_tile n.key_td stq hmax hsum
      rw [hts] at hptl
      exact pfPost_ret_false_of_ptl env p.cost _ st hptl
  | none =>
    rw [PfCalcCost_root_eq env fuel n tf hp] at hres
    rcases Option.map_eq_some'.mp hres with ⟨st, hmain, hpost⟩
    obtain ⟨hesr, hpcost, hent, hsc⟩ := pfPost_frame env 0 (decide (0 ≤ n.segment.cost)) st
    subst hpost
    constructor
    · intro hret
      refine ⟨?_, ?_⟩
      · rw [hpcost, hent, hsc]
        exact pfPost_cost_formula env 0 _ st hret
      · rw [hpcost]
    · intro hfresh hmax hsum
      rw [decide_eq_false (not_le.mpr hfresh)] at hmain
      obtain ⟨stq, htq⟩ := stEnd_brk_tail env 0 n.key_tile n.key_td fuel _ st hmain
      have hts : ((pfIterTail env 0 n.key_tile n.key_td stq).toSt) = st := by
        rw [htq]
        rfl
      rw [hpcost, hent, hsc, ← hts] at hsum
      have hptl := pfIterTail_ptl env 0 n.key_tile n.key_td stq hmax hsum
      rw [hts] at hptl
      exact pfPost_ret_false_of_ptl env 0 _ st hptl

/-- The result of the witness run whose running sum 5 + 0 + 100 exceeds the
positive bound 42. -/
def maxCostRes : PfRes :=
  (PfCalcCost { testEnv with max_cost := 42 } 2 testNode testTf).getD dummyRes

/-- C4 witness: the run against the bound 42 is rejected. -/
theorem C4_cost_sum_and_max_cost_witness : maxCostRes.ret = false :=
  (C4_cost_sum_and_max_cost { testEnv with max_cost := 42 } 2 testNode testTf maxCostRes
    (by decide)).2 (by decide) (by decide) (by decide)

/-- C5 (the maximum-cost early-abort does not apply to cache hits): pricing
a node from a valid cached segment (`0 ≤ segment.cost` whose stored reasons
lack `PathTooLong`, as written back by every cache store) is independent of
the configured `max_cost`, and the result never carries `PathTooLong` — the
node is never rejected for exceeding `max_cost`, whatever the bound. -/
theorem C5_cached_ignores_max_cost (env : Env) (n : Node) (tf : FollowRes) (p : ParentInfo)
    (M : Int) (hpar : n.parent = some p) (hc : 0 ≤ n.segment.cost)
    (hptl : n.segment.end_segment_reason.pathTooLong = false) :
    PfCalcCost { env with max_cost := M } 1 n tf = PfCalcCost env 1 n tf ∧
    ∃ r, PfCalcCost { env with max_cost := M } 1 n tf = some r ∧
      r.segment_cost = n.segment.cost ∧ r.esr.pathTooLong = false := by
  constructor
  · rw [PfCalcCost_parent_eq { env with max_cost := M } 1 n tf p hpar,
        PfCalcCost_parent_eq env 1 n tf p hpar, decide_eq_true hc]
    rfl
  · obtain ⟨r, hr, hsc, hesr, _⟩ :=
      PfCalcCost_cached { env with max_cost := M } n tf p hpar hc
    exact ⟨r, hr, hsc, by rw [hesr]; exact hptl⟩

/-- C5 witness: the cached node of cost 60 over parent cost 5 prices the
same against the bound 7 it exceeds as with no bound at all, without
`PathTooLong`. -/
theorem C5_cached_ignores_max_cost_witness :
    PfCalcCost { testEnv with max_cost := 7 } 1 cachedNode testTf =
      PfCalcCost testEnv 1 cachedNode testTf ∧
    ∃ r, PfCalcCost { testEnv with max_cost := 7 } 1 cachedNode testTf = some r ∧
      r.segment_cost = cachedNode.segment.cost ∧ r.esr.pathTooLong = false :=
  C5_cached_ignores_max_cost testEnv cachedNode testTf testParent 7 (by decide) (by decide)
    (by decide)

/-! ## Claim C8: destination platform-length penalty -/

/-- C8: the destination platform-length penalty is asymmetric and exact:
with the vehicle length in tiles `CeilDiv(cached_total_length, TILE_SIZE)`
and `k` = vehicle tiles minus platform length, `PlatformLengthPenalty`
returns `rail_shorter_platform_penalty +
rail_shorter_platform_per_tile_penalty * k` when `k > 0`,
`rail_longer_platform_penalty + rail_longer_platform_per_tile_penalty * (-k)`
when `k < 0`, and `0` when `k = 0`; in particular a platform 3 tiles shorter
than the vehicle costs exactly `rail_shorter_platform_penalty +
rail_shorter_platform_per_tile_penalty * 3`. -/
theorem C8_platform_length_penalty (env : Env) (platform_length : Int) :
    (PlatformLengthPenalty env platform_length =
      (if 0 < ((CeilDiv env.vehicleLength TILE_SIZE : Nat) : Int) - platform_length then
        (env.settings.rail_shorter_platform_penalty : Int) +
          (env.settings.rail_shorter_platform_per_tile_penalty : Int) *
            (((CeilDiv env.vehicleLength TILE_SIZE : Nat) : Int) - platform_length)
      else if ((CeilDiv env.vehicleLength TILE_SIZE : Nat) : Int) - platform_length < 0 then
        (env.settings.rail_longer_platform_penalty : Int) +
          (env.settings.rail_longer_platform_per_tile_penalty : Int) *
            (-(((CeilDiv env.vehicleLength TILE_SIZE : Nat) : Int) - platform_length))
      else 0)) ∧
    PlatformLengthPenalty env (((CeilDiv env.vehicleLength TILE_SIZE : Nat) : Int) - 3) =
      (env.settings.rail_shorter_platform_penalty : Int) +
        (env.settings.rail_shorter_platform_per_tile_penalty : Int) * 3 := by
  constructor
  · unfold PlatformLengthPenalty
    rcases lt_trichotomy (((CeilDiv env.vehicleLength TILE_SIZE : Nat) : Int) - platform_length) 0
      with h | h | h
    · rw [if_pos h, if_neg (by omega), if_pos h]
    · rw [if_neg (by omega), if_neg (by omega), if_neg (by omega), if_neg (by omega)]
    · rw [if_neg (by omega), if_pos (by omega), if_pos h]
  · unfold PlatformLengthPenalty
    have h3 : ((CeilDiv env.vehicleLength TILE_SIZE : Nat) : Int) -
        (((CeilDiv env.vehicleLength TILE_SIZE : Nat) : Int) - 3) = 3 := by ring
    rw [h3]
    norm_num

/-! ## Claim C9: one-way signal against the travel direction -/

/-- C9: on a railway tile carrying a red one-way signal against the travel
direction — a signal on the reverse trackdir, none on the travel trackdir,
and the signal one-way — `SignalCost` marks the segment with the `DeadEnd`
end-segment reason. -/
theorem C9_oneway_against_dead_end (env : Env) (n : Node) (tile : TileIndex)
    (trackdir : Trackdir)
    (htile : env.tileType tile = TileType.railway)
    (hagainst : env.hasSignalOnTrackdir tile (env.reverseTrackdir trackdir) = true)
    (halong : env.hasSignalOnTrackdir tile trackdir = false)
    (honeway : env.isOnewaySignal tile (env.trackdirToTrack trackdir) = true)
    (hred : env.getSignalStateByTrackdir tile (env.reverseTrackdir trackdir) = SignalState.red) :
    (SignalCost env n tile trackdir).n.segment.end_segment_reason.deadEnd = true := by
  simp [SignalCost, htile, hagainst, halong, honeway, Node.setSegmentDeadEnd]

/-- Witness for C9 at a concrete input. -/
theorem C9_oneway_against_dead_end_witness :
    (SignalCost envOnewayAgainst nodeNoChoice 0 0).n.segment.end_segment_reason.deadEnd = true :=
  C9_oneway_against_dead_end envOnewayAgainst nodeNoChoice 0 0 (by decide) (by decide)
    (by decide) (by decide) (by decide)

/-! ## Claim C10: the global-cache eligibility gate -/

/-- C10: `CanUseGlobalCache` returns true exactly when caching is not
disabled, the node has a parent, and the parent has passed at least
`rail_look_ahead_max_signals` signals (the length of the look-ahead cost
table); hence root nodes and nodes whose parent is still inside the signal
look-ahead window are never served from the global segment cache. -/
theorem C10_cache_gate (env : Env) (n : Node) :
    CanUseGlobalCache env n = true ↔
      env.disable_cache = false ∧ ∃ p, n.parent = some p ∧
        env.settings.rail_look_ahead_max_signals ≤ p.num_signals_passed := by
  cases hp : n.parent with
  | none => simp [CanUseGlobalCache, hp]
  | some p => simp [CanUseGlobalCache, hp, sig_look_ahead_costs_length]

/-! ## Claim C3: first red two-way signal treated as end of line -/

/-- C3 counterexample: a red two-way (signal both along and against) block —
hence non-PBS — signal that is the very first signal on the path
(`num_signals_passed = 0`), with the treat-first-red-two-way-as-EOL policy
enabled (`envRedSignals` has both the setting and the flag on), is *not*
aborted as a dead end when the node has not seen a choice yet: `SignalCost`
returns the positive first-red penalty 55 instead of the negative sentinel,
and sets neither `DeadEnd` nor the stopped flag.  The claim omits the
`choice_seen` guard of the source condition. -/
theorem C3_no_choice_counterexample :
    (SignalCost envRedSignals nodeNoChoice 0 0).cost = 55 ∧
    (SignalCost envRedSignals nodeNoChoice 0 0).n.segment.end_segment_reason.deadEnd = false ∧
    (SignalCost envRedSignals nodeNoChoice 0 0).stopped = false := by decide

/-- C3 (amended): when a red signal along the travel direction is the very
first signal on the path, is two-way (a signal also against), is a non-PBS
type, the treat-first-red-two-way-signal-as-EOL policy is enabled *and the
node has already seen a route choice* (`choice_seen`), the branch is aborted
as a dead end before any red-signal penalty is accumulated: `SignalCost`
returns exactly the `-1` sentinel (no penalty), sets the `DeadEnd`
end-segment reason and the `stopped_on_first_two_way_signal` flag, and does
not even count the signal as passed. -/
theorem C3_first_red_two_way_eol (env : Env) (n : Node) (tile : TileIndex) (trackdir : Trackdir)
    (htile : env.tileType tile = TileType.railway)
    (halong : env.hasSignalOnTrackdir tile trackdir = true)
    (hred : env.getSignalStateByTrackdir tile trackdir = SignalState.red)
    (hnp : IsPbsSignal (env.getSignalType tile (env.trackdirToTrack trackdir)) = false)
    (heol : TreatFirstRedTwoWaySignalAsEOL env = true)
    (hchoice : n.flags.choice_seen = true)
    (hagainst : env.hasSignalOnTrackdir tile (env.reverseTrackdir trackdir) = true)
    (hfirst : n.num_signals_passed = 0) :
    (SignalCost env n tile trackdir).cost = -1 ∧
    (SignalCost env n tile trackdir).n.segment.end_segment_reason.deadEnd = true ∧
    (SignalCost env n tile trackdir).stopped = true ∧
    (SignalCost env n tile trackdir).n.num_signals_passed = n.num_signals_passed := by
  simp [SignalCost, htile, halong, hred, hnp, heol, hchoice, hagainst, hfirst,
    Node.setSegmentDeadEnd]

/-- Witness for the amended C3 at a concrete input. -/
theorem C3_first_red_two_way_eol_witness :
    (SignalCost envRedSignals nodeChoiceSeen 0 0).cost = -1 ∧
    (SignalCost envRedSignals nodeChoiceSeen 0 0).n.segment.end_segment_reason.deadEnd = true ∧
    (SignalCost envRedSignals nodeChoiceSeen 0 0).stopped = true ∧
    (SignalCost envRedSignals nodeChoiceSeen 0 0).n.num_signals_passed =
      nodeChoiceSeen.num_signals_passed :=
  C3_first_red_two_way_eol envRedSignals nodeChoiceSeen 0 0 (by decide) (by decide) (by decide)
    (by decide) (by decide) (by decide) (by decide) (by decide)

/-! ## Claim C6: green-signal look-ahead cost -/

/-- C6: for a green (non-red) signal along the travel direction with `i`
signals already passed, `SignalCost` adds `|p0 + i*(p1 + i*p2)|` exactly when
that polynomial value is negative and `i` is below
`rail_look_ahead_max_signals`, and adds no look-ahead cost otherwise (beyond
the limit the table value counts as 0).  The only other contribution on a
green signal is the PBS back-signal penalty, spelled out in the second
summand. -/
theorem C6_green_look_ahead (env : Env) (n : Node) (tile : TileIndex) (trackdir : Trackdir)
    (htile : env.tileType tile = TileType.railway)
    (halong : env.hasSignalOnTrackdir tile trackdir = true)
    (hgreen : env.getSignalStateByTrackdir tile trackdir ≠ SignalState.red) :
    (SignalCost env n tile trackdir).cost =
      (if n.num_signals_passed < env.settings.rail_look_ahead_max_signals ∧
          lookAheadPoly env.settings n.num_signals_passed < 0 then
        -lookAheadPoly env.settings n.num_signals_passed
      else 0) +
      (if env.hasSignalOnTrackdir tile (env.reverseTrackdir trackdir) = true ∧
          IsPbsSignal (env.getSignalType tile (env.trackdirToTrack trackdir)) = true then
        (if n.num_signals_passed + 1 < env.settings.rail_look_ahead_max_signals then
          (env.settings.rail_pbs_signal_back_penalty : Int)
        else 0)
      else 0) := by
  by_cases h : n.num_signals_passed < env.settings.rail_look_ahead_max_signals
  · simp [SignalCost, htile, halong, hgreen, Node.passSignal, sig_look_ahead_costs_length, h,
      sig_look_ahead_costs_getD env.settings n.num_signals_passed h,
      sig_look_ahead_costs_getElem]
  · simp [SignalCost, htile, halong, hgreen, Node.passSignal, sig_look_ahead_costs_length, h]

/-- Witness for C6: with `p0 = -5` and no signal passed yet the green signal
costs exactly 5 (the absolute value of the polynomial). -/
theorem C6_green_look_ahead_witness :
    (SignalCost envGreenSignals nodeNoChoice 0 0).cost = 5 := by
  rw [C6_green_look_ahead envGreenSignals nodeNoChoice 0 0 (by decide) (by decide) (by decide)]
  decide

/-! ## Claim C7: red non-PBS signal penalties -/

/-- C7: for a red non-PBS signal along the travel direction that does not
trigger the two-way end-of-line abort, `SignalCost` adds the look-ahead
polynomial value only when it is positive (and `i` is inside the look-ahead
window; beyond it the value counts as 0), plus — exactly when this is the
first signal on the path (`num_signals_passed = 0`) — a flat first-red
penalty chosen by signal category: `rail_firstred_exit_penalty` for
exit/combo signals and `rail_firstred_penalty` for block/entry signals. -/
theorem C7_red_first_penalties (env : Env) (n : Node) (tile : TileIndex) (trackdir : Trackdir)
    (htile : env.tileType tile = TileType.railway)
    (halong : env.hasSignalOnTrackdir tile trackdir = true)
    (hred : env.getSignalStateByTrackdir tile trackdir = SignalState.red)
    (hnp : IsPbsSignal (env.getSignalType tile (env.trackdirToTrack trackdir)) = false)
    (hnoabort : ¬(TreatFirstRedTwoWaySignalAsEOL env = true ∧ n.flags.choice_seen = true ∧
        env.hasSignalOnTrackdir tile (env.reverseTrackdir trackdir) = true ∧
        n.num_signals_passed = 0)) :
    (SignalCost env n tile trackdir).cost =
      (if n.num_signals_passed < env.settings.rail_look_ahead_max_signals ∧
          0 < lookAheadPoly env.settings n.num_signals_passed then
        lookAheadPoly env.settings n.num_signals_passed
      else 0) +
      (if n.num_signals_passed = 0 then
        (match env.getSignalType tile (env.trackdirToTrack trackdir) with
          | SignalType.combo => (env.settings.rail_firstred_exit_penalty : Int)
          | SignalType.exit => (env.settings.rail_firstred_exit_penalty : Int)
          | SignalType.block => (env.settings.rail_firstred_penalty : Int)
          | SignalType.entry => (env.settings.rail_firstred_penalty : Int)
          | _ => 0)
      else 0) := by
  by_cases h : n.num_signals_passed < env.settings.rail_look_ahead_max_signals
  · simp [SignalCost, htile, halong, hred, hnp, hnoabort, Node.passSignal,
      sig_look_ahead_costs_length, h,
      sig_look_ahead_costs_getD env.settings n.num_signals_passed h,
      sig_look_ahead_costs_getElem]
  · simp [SignalCost, htile, halong, hred, hnp, hnoabort, Node.passSignal,
      sig_look_ahead_costs_length, h]

/-- Witness for C7: a first red two-way block signal with `choice_seen`
unset costs exactly the flat block/entry first-red penalty 55. -/
theorem C7_red_first_penalties_witness :
    (SignalCost envRedSignals nodeNoChoice 0 0).cost = 55 := by
  rw [C7_red_first_penalties envRedSignals nodeNoChoice 0 0 (by decide) (by decide) (by decide)
    (by decide) (by decide)]
  decide

end Yapf
